import Mathlib

/-!
Shallow embedding of the station reconciliation and upsert pipeline of the
`air_quality` repository (backend/crud.py, backend/scheduler.py,
backend/waqi_stations.py, backend/data_sources.py, backend/models.py,
backend/schemas.py), together with theorems settling the claims about it.

Modelling conventions:
* Python/JSON values are modelled by the inductive type `Json`; Python `None`
  and JSON `null` are both `Json.null`.  Numbers are modelled by `ℚ` (the code
  performs no arithmetic on measurements, only comparisons on coordinates).
* Python wall-clock timestamps (`datetime.utcnow()`) are modelled as integer
  seconds; `timedelta(days = d)` is `d * 86400`.
* A Python expression that can raise an exception is modelled in
  `Except Unit`; `.error ()` marks the raise, and the various `try/except`
  blocks of the source are modelled by matching on the `Except` value exactly
  where the source has its handlers.
* The database session is created with `autoflush=False`
  (backend/database.py, `get_session_local`), so a query inside
  `upsert_station_data` sees only rows that were already committed when the
  call started (plus in-place attribute updates on those rows, which the ORM
  identity map makes visible); rows `add`ed during the same call are pending
  and invisible to later queries of the same call.  The state is therefore
  threaded as a `committed` list (queried, updated in place) plus a `pending`
  list (appended, flushed at the final `commit`).
* String coercions of pydantic lax validation (e.g. `"3"` accepted for an
  `int` field) are not modelled: a string where a number is required is a
  validation error.  No claim exercises those coercions.
-/

/-- JSON/Python value as passed around by the backend. -/
inductive Json where
  | null
  | bool (b : Bool)
  | num (q : ℚ)
  | str (s : String)
  | arr (xs : List Json)
  | obj (fields : List (String × Json))
deriving Repr

/-- Structural decidable equality for `Json` (numbers compare as `ℚ`,
mirroring Python's numeric equality between `int` and `float`). -/
def Json.beq : Json → Json → Bool
  | .null, .null => true
  | .bool a, .bool b => a == b
  | .num a, .num b => a == b
  | .str a, .str b => a == b
  | .arr a, .arr b => beqList a b
  | .obj a, .obj b => beqObj a b
  | _, _ => false
where
  beqList : List Json → List Json → Bool
    | [], [] => true
    | x :: xs, y :: ys => Json.beq x y && beqList xs ys
    | _, _ => false
  beqObj : List (String × Json) → List (String × Json) → Bool
    | [], [] => true
    | (k, v) :: xs, (l, w) :: ys => k == l && Json.beq v w && beqObj xs ys
    | _, _ => false

instance : BEq Json := ⟨Json.beq⟩

theorem Json.beq_eq (a b : Json) : (a == b) = Json.beq a b := rfl

/-- Python truthiness (`if x:`) on JSON values. -/
def Json.truthy : Json → Bool
  | .null => false
  | .bool b => b
  | .num q => !(q == 0)
  | .str s => !(s == "")
  | .arr xs => !xs.isEmpty
  | .obj fs => !fs.isEmpty

/-- Python `d.get(key, default)`: returns the stored value (even when that
value is `null`), the default when the key is absent, and raises
(`AttributeError`) when the receiver is not a dict. -/
def pyGet (j : Json) (key : String) (dflt : Json) : Except Unit Json :=
  match j with
  | .obj fs =>
    match fs.lookup key with
    | some v => .ok v
    | none => .ok dflt
  | _ => .error ()

/-- Python `d.get(key)` (one-argument form, default `None`). -/
def pyGet1 (j : Json) (key : String) : Except Unit Json :=
  pyGet j key .null

/-- Python `d[key]`: raises on a missing key or a non-dict receiver. -/
def pyIndex (j : Json) (key : String) : Except Unit Json :=
  match j with
  | .obj fs =>
    match fs.lookup key with
    | some v => .ok v
    | none => .error ()
  | _ => .error ()

/-- Python `key in d` for a dict receiver. -/
def Json.hasKey (j : Json) (key : String) : Bool :=
  match j with
  | .obj fs => (fs.lookup key).isSome
  | _ => false

/-- Pydantic schema `schemas.StationDataBase`: the normalized station reading
handed to the CRUD layer.  Field names and optionality follow
backend/schemas.py; measurement floats are `ℚ`, `data_attribution` is kept
as opaque JSON. -/
structure StationDataBase where
  station_uid : Int
  station_name : String
  station_url : Option String := none
  aqi : Option Int := none
  pm25 : Option ℚ := none
  pm10 : Option ℚ := none
  no2 : Option ℚ := none
  o3 : Option ℚ := none
  co : Option ℚ := none
  so2 : Option ℚ := none
  temperature : Option ℚ := none
  pressure : Option ℚ := none
  humidity : Option ℚ := none
  wind_speed : Option ℚ := none
  latitude : ℚ
  longitude : ℚ
  station_timestamp : Option String := none
  source : String := "waqi_api"
  data_attribution : Option Json := none
  region : String := "Berlin"

/-- ORM model `models.StationData`: one persisted row of the `station_data`
table.  `id` is the storage-assigned surrogate key, `last_update` the
database write time stamped by the CRUD layer. -/
structure StationData where
  id : Nat
  station_uid : Int
  station_name : String
  station_url : Option String
  aqi : Option Int
  pm25 : Option ℚ
  pm10 : Option ℚ
  no2 : Option ℚ
  o3 : Option ℚ
  co : Option ℚ
  so2 : Option ℚ
  temperature : Option ℚ
  pressure : Option ℚ
  humidity : Option ℚ
  wind_speed : Option ℚ
  latitude : ℚ
  longitude : ℚ
  station_timestamp : Option String
  source : String
  data_attribution : Option Json
  region : String
  last_update : Int

/-- Data carried by a stored row, viewed as a `StationDataBase` (everything
except the surrogate key `id` and `last_update`). -/
def StationData.data (r : StationData) : StationDataBase :=
  { station_uid := r.station_uid
    station_name := r.station_name
    station_url := r.station_url
    aqi := r.aqi
    pm25 := r.pm25
    pm10 := r.pm10
    no2 := r.no2
    o3 := r.o3
    co := r.co
    so2 := r.so2
    temperature := r.temperature
    pressure := r.pressure
    humidity := r.humidity
    wind_speed := r.wind_speed
    latitude := r.latitude
    longitude := r.longitude
    station_timestamp := r.station_timestamp
    source := r.source
    data_attribution := r.data_attribution
    region := r.region }

/-- A stored row with its `last_update` field blanked, used to speak about
"every field except the timestamp". -/
def StationData.eraseTs (r : StationData) : StationData :=
  { r with last_update := 0 }

/-- Update branch of `crud.upsert_station_data`: every field of `data.dict()`
except `station_uid` is written onto the existing row (`id` and
`station_uid` are untouched), then `last_update` is set to the cycle
timestamp. -/
def applyData (r : StationData) (d : StationDataBase) (now : Int) : StationData :=
  { id := r.id
    station_uid := r.station_uid
    station_name := d.station_name
    station_url := d.station_url
    aqi := d.aqi
    pm25 := d.pm25
    pm10 := d.pm10
    no2 := d.no2
    o3 := d.o3
    co := d.co
    so2 := d.so2
    temperature := d.temperature
    pressure := d.pressure
    humidity := d.humidity
    wind_speed := d.wind_speed
    latitude := d.latitude
    longitude := d.longitude
    station_timestamp := d.station_timestamp
    source := d.source
    data_attribution := d.data_attribution
    region := d.region
    last_update := now }

/-- Insert branch of `crud.upsert_station_data`:
`models.StationData(**data.dict())` with a fresh surrogate key and the cycle
timestamp. -/
def rowOfData (d : StationDataBase) (i : Nat) (now : Int) : StationData :=
  { id := i
    station_uid := d.station_uid
    station_name := d.station_name
    station_url := d.station_url
    aqi := d.aqi
    pm25 := d.pm25
    pm10 := d.pm10
    no2 := d.no2
    o3 := d.o3
    co := d.co
    so2 := d.so2
    temperature := d.temperature
    pressure := d.pressure
    humidity := d.humidity
    wind_speed := d.wind_speed
    latitude := d.latitude
    longitude := d.longitude
    station_timestamp := d.station_timestamp
    source := d.source
    data_attribution := d.data_attribution
    region := d.region
    last_update := now }

/-- The `.first()` lookup of `upsert_station_data`: first committed row whose
`station_uid` matches. -/
def findUid (s : List StationData) (uid : Int) : Option StationData :=
  s.find? (fun r => r.station_uid == uid)

/-- In-place ORM mutation of the first row matching `uid` (the object
returned by the query is mutated through the identity map; its position in
the table is unchanged). -/
def updateFirst (s : List StationData) (uid : Int) (f : StationData → StationData) :
    List StationData :=
  match s with
  | [] => []
  | r :: rs => if r.station_uid == uid then f r :: rs else r :: updateFirst rs uid f

/-- Loop state of `upsert_station_data`: committed rows (visible to queries),
pending inserts (invisible, `autoflush=False`), the next surrogate key, and
how many batch entries took the update resp. insert branch. -/
structure LoopSt where
  committed : List StationData
  pending : List StationData
  nextKey : Nat
  upd : Nat
  ins : Nat

/-- The `for data in station_data_list:` loop of `crud.upsert_station_data`. -/
def upsertLoop (now : Int) : List StationDataBase → LoopSt → LoopSt
  | [], st => st
  | d :: rest, st =>
    match findUid st.committed d.station_uid with
    | some _ =>
      upsertLoop now rest
        { st with
          committed := updateFirst st.committed d.station_uid (fun r => applyData r d now)
          upd := st.upd + 1 }
    | none =>
      upsertLoop now rest
        { st with
          pending := st.pending ++ [rowOfData d st.nextKey now]
          nextKey := st.nextKey + 1
          ins := st.ins + 1 }

/-- Largest surrogate key in use (the autoincrement column continues from
here when pending rows are flushed at commit). -/
def maxKey (s : List StationData) : Nat :=
  s.foldr (fun r m => max r.id m) 0

/-- Embedding of `crud.upsert_station_data`.  `current_time` is captured once
before the loop; the commit at the end flushes the pending inserts after the
committed rows.  Returns the resulting table together with how many batch
entries were updates resp. inserts. -/
def upsert_station_data (now : Int) (batch : List StationDataBase)
    (state : List StationData) : List StationData × Nat × Nat :=
  let out := upsertLoop now batch ⟨state, [], maxKey state + 1, 0, 0⟩
  (out.committed ++ out.pending, out.upd, out.ins)

/-- Embedding of `crud.cleanup_old_station_data`: bulk delete of every row
whose `last_update` is strictly before `now - days_to_keep` days; returns the
new table and the deleted count. -/
def cleanup_old_station_data (now : Int) (days_to_keep : Int)
    (state : List StationData) : List StationData × Nat :=
  let cutoff := now - days_to_keep * 86400
  let kept := state.filter (fun r => !(r.last_update < cutoff))
  (kept, state.length - kept.length)

/-- Berlin bounding box `BERLIN_BOUNDS` of backend/waqi_stations.py. -/
def BERLIN_BOUNDS_lat1 : ℚ := 52.35

/-- Northern latitude bound of `BERLIN_BOUNDS`. -/
def BERLIN_BOUNDS_lat2 : ℚ := 52.65

/-- Western longitude bound of `BERLIN_BOUNDS`. -/
def BERLIN_BOUNDS_lon1 : ℚ := 13.10

/-- Eastern longitude bound of `BERLIN_BOUNDS`. -/
def BERLIN_BOUNDS_lon2 : ℚ := 13.70

/-- An HTTP interaction as seen by the code: either `requests.get` (or
`.json()`) raised, or a response with a status code and parsed JSON body. -/
inductive ApiResp where
  | exn
  | status (code : Nat) (body : Json)

/-- Python `float(x)` on a JSON value (numbers only; strings are not
modelled, see the header note). -/
def asFloatPy : Json → Except Unit ℚ
  | .num q => .ok q
  | _ => .error ()

/-- Python `len(x)` (sequences only). -/
def pyLen : Json → Except Unit Nat
  | .arr xs => .ok xs.length
  | .obj fs => .ok fs.length
  | .str s => .ok s.length
  | _ => .error ()

/-- The `all_stations` dict of `fetch_berlin_stations`: insertion-ordered,
keyed by the raw `uid` value; assignment to an existing key replaces the
value in place. -/
abbrev StationDict := List (Json × Json)

/-- Dict lookup keyed by JSON value (Python `d[k]` / `k in d`). -/
def dictLookup (d : StationDict) (k : Json) : Option Json :=
  match d with
  | [] => none
  | (k', v) :: rest => if k' == k then some v else dictLookup rest k

/-- Dict assignment `d[k] = v`: replaces in place, or appends a new entry. -/
def dictInsert (d : StationDict) (k v : Json) : StationDict :=
  match d with
  | [] => [(k, v)]
  | (k', v') :: rest =>
    if k' == k then (k, v) :: rest else (k', v') :: dictInsert rest k v

/-- Bounds-API half of `fetch_berlin_stations`: fills `all_stations` from the
`/map/bounds/` response.  A raised exception propagates to the outer
`except` (which returns an empty FeatureCollection), a non-200 status or a
non-"ok" payload just leaves the dict empty. -/
def boundsPass (resp : ApiResp) : Except Unit StationDict :=
  match resp with
  | .exn => .error ()
  | .status code body =>
    if code == 200 then do
      let st ← pyIndex body "status"
      if st == .str "ok" then
        let data ← pyGet body "data" (.arr [])
        match data with
        | .arr stations =>
          stations.foldlM (fun dict station => do
            let uid ← pyGet1 station "uid"
            let latv ← pyGet1 station "lat"
            let lonv ← pyGet1 station "lon"
            if uid.truthy && latv.truthy && lonv.truthy then
              pure (dictInsert dict uid station)
            else
              pure dict) []
        | _ => .error ()
      else pure []
    else pure []

/-- One station of the search-API loop of `fetch_berlin_stations`: accepted
only if its uid is new, its `station.geo` pair is present, and its
coordinates lie inside `BERLIN_BOUNDS`; the accepted entry is the converted
(search-to-bounds format) record. -/
def searchStep (dict : StationDict) (station : Json) : Except Unit StationDict := do
  let uid ← pyGet1 station "uid"
  if uid.truthy && (dictLookup dict uid).isNone then
    let stn ← pyGet station "station" (.obj [])
    let geo ← pyGet1 stn "geo"
    if geo.truthy then
      let n ← pyLen geo
      if 2 ≤ n then
        let geoList ← match geo with
          | .arr xs => Except.ok xs
          | _ => Except.error ()
        let lat ← asFloatPy (geoList.getD 0 .null)
        let lon ← asFloatPy (geoList.getD 1 .null)
        if BERLIN_BOUNDS_lat1 ≤ lat ∧ lat ≤ BERLIN_BOUNDS_lat2 ∧
            BERLIN_BOUNDS_lon1 ≤ lon ∧ lon ≤ BERLIN_BOUNDS_lon2 then
          let aqi ← pyGet1 station "aqi"
          let name ← pyGet stn "name" (.str "Unknown")
          let time ← pyGet stn "time" (.str "")
          pure (dictInsert dict uid
            (.obj [("uid", uid), ("lat", .num lat), ("lon", .num lon),
                   ("aqi", aqi),
                   ("station", .obj [("name", name), ("time", time)])]))
        else pure dict
      else pure dict
    else pure dict
  else pure dict

/-- Search loop body with the inner `try/except` semantics: an exception
keeps the insertions made before it and abandons the rest of the search
results. -/
def searchFold (dict : StationDict) : List Json → StationDict
  | [] => dict
  | s :: rest =>
    match searchStep dict s with
    | .ok d' => searchFold d' rest
    | .error _ => dict

/-- Search-API half of `fetch_berlin_stations`.  The whole section sits in an
inner `try/except`, so every failure mode degrades to "continue with the
bounds data". -/
def searchPass (dict : StationDict) (resp : ApiResp) : StationDict :=
  match resp with
  | .exn => dict
  | .status code body =>
    if code == 200 then
      match pyIndex body "status" with
      | .error _ => dict
      | .ok st =>
        if st == .str "ok" then
          match pyGet body "data" (.arr []) with
          | .error _ => dict
          | .ok (.arr stations) => searchFold dict stations
          | .ok _ => dict
        else dict
    else dict

/-- GeoJSON feature emission of `fetch_berlin_stations` for one
`all_stations` entry; a zero coordinate or a conversion error skips the
entry (per-station `try/except` with `continue`). -/
def emitFeature (nowIso : String) (uid station : Json) : Option Json :=
  let r : Except Unit (Option Json) := do
    let lat ← asFloatPy (← pyGet station "lat" (.num 0))
    let lon ← asFloatPy (← pyGet station "lon" (.num 0))
    if lat == 0 || lon == 0 then
      pure none
    else do
      let stn ← pyGet station "station" (.str "Unknown")
      let aqi ← pyGet1 station "aqi"
      pure (some (.obj [("type", .str "Feature"),
        ("geometry", .obj [("type", .str "Point"),
                           ("coordinates", .arr [.num lon, .num lat])]),
        ("properties", .obj [("uid", uid), ("station", stn), ("aqi", aqi),
                             ("timestamp", .str nowIso),
                             ("source", .str "bounds_and_search_api")])]))
  match r with
  | .ok o => o
  | .error _ => none

/-- The merged `all_stations` dict after both discovery passes. -/
def allStations (bounds search : ApiResp) : Except Unit StationDict := do
  let d ← boundsPass bounds
  pure (searchPass d search)

/-- Embedding of `waqi_stations.fetch_berlin_stations`, returning the
`features` list of the produced FeatureCollection (`nowIso` is
`datetime.now().isoformat()`).  The outer `except` yields an empty feature
list. -/
def fetch_berlin_stations (nowIso : String) (bounds search : ApiResp) : List Json :=
  match allStations bounds search with
  | .error _ => []
  | .ok d => d.filterMap (fun kv => emitFeature nowIso kv.1 kv.2)

/-- Extraction of one pollutant/weather value in
`fetch_berlin_stations_detailed`:
`data.get("iaqi", {}).get(key, {}).get("v")`. -/
def iaqiOf (data : Json) (key : String) : Except Unit Json := do
  let iaqi ← pyGet data "iaqi" (.obj [])
  let slot ← pyGet iaqi key (.obj [])
  pyGet1 slot "v"

/-- The `enhanced_properties` dict built by
`fetch_berlin_stations_detailed` from a detail-feed payload `data`; any
raised exception is propagated (caught by the per-station `except`). -/
def enhancedProps (uid data : Json) : Except Unit Json := do
  let city ← pyGet data "city" (.obj [])
  let name ← pyGet city "name" (.str "Unknown")
  let url ← pyGet city "url" (.str "")
  let aqi ← pyGet1 data "aqi"
  let timeObj ← pyGet data "time" (.obj [])
  let time ← pyGet1 timeObj "s"
  let pm25 ← iaqiOf data "pm25"
  let pm10 ← iaqiOf data "pm10"
  let no2 ← iaqiOf data "no2"
  let o3 ← iaqiOf data "o3"
  let co ← iaqiOf data "co"
  let so2 ← iaqiOf data "so2"
  let temperature ← iaqiOf data "t"
  let pressure ← iaqiOf data "p"
  let humidity ← iaqiOf data "h"
  let wind_speed ← iaqiOf data "w"
  let attributions ← pyGet data "attributions" (.arr [])
  pure (.obj [("uid", uid), ("name", name), ("url", url), ("aqi", aqi),
    ("time", time),
    ("pm25", pm25), ("pm10", pm10), ("no2", no2), ("o3", o3),
    ("co", co), ("so2", so2),
    ("temperature", temperature), ("pressure", pressure),
    ("humidity", humidity), ("wind_speed", wind_speed),
    ("attributions", attributions)])

/-- Body of the per-station `try` of `fetch_berlin_stations_detailed`:
`some feature` appends the enhanced feature, `none` silently skips the
station (non-200 response, or a payload without `status == "ok"` and
`"data"`), and `.error` reaches the `except` handler which appends the basic
station instead. -/
def detailTry (basic uid : Json) (resp : ApiResp) : Except Unit (Option Json) :=
  match resp with
  | .exn => .error ()
  | .status code body =>
    if code == 200 then do
      let st ← pyGet1 body "status"
      if st == .str "ok" && body.hasKey "data" then do
        let data ← pyIndex body "data"
        let ep ← enhancedProps uid data
        let geom ← pyIndex basic "geometry"
        pure (some (.obj [("type", .str "Feature"), ("geometry", geom),
                          ("properties", ep)]))
      else pure none
    else pure none

/-- Embedding of `waqi_stations.fetch_berlin_stations_detailed`, applied to
the basic feature list and a map from station uid to the detail-feed HTTP
interaction.  The uid extraction sits outside the `try`, so its failure
aborts the whole call. -/
def fetch_berlin_stations_detailed (feats : List Json) (resps : Json → ApiResp) :
    Except Unit (List Json) :=
  feats.foldlM (fun acc station => do
    let props ← pyGet station "properties" (.obj [])
    let uid ← pyGet1 props "uid"
    if uid.truthy then
      match detailTry station uid (resps uid) with
      | .ok (some f) => pure (acc ++ [f])
      | .ok none => pure acc
      | .error _ => pure (acc ++ [station])
    else pure acc) []

/-- Pydantic lax validation into an `int` field (`station_uid`): accepts an
integral number, rejects everything else. -/
def asInt : Json → Except Unit Int
  | .num q => if q.den == 1 then .ok q.num else .error ()
  | _ => .error ()

/-- Pydantic validation into a required `str` field. -/
def asStr : Json → Except Unit String
  | .str s => .ok s
  | _ => .error ()

/-- Pydantic validation into an `Optional[str]` field. -/
def asOptStr : Json → Except Unit (Option String)
  | .null => .ok none
  | .str s => .ok (some s)
  | _ => .error ()

/-- Pydantic validation into an `Optional[int]` field (`aqi`). -/
def asOptInt : Json → Except Unit (Option Int)
  | .null => .ok none
  | .num q => if q.den == 1 then .ok (some q.num) else .error ()
  | _ => .error ()

/-- Pydantic validation into an `Optional[float]` field. -/
def asOptFloat : Json → Except Unit (Option ℚ)
  | .null => .ok none
  | .num q => .ok (some q)
  | _ => .error ()

/-- Pydantic validation into a required `float` field (coordinates). -/
def asFloat : Json → Except Unit ℚ
  | .num q => .ok q
  | _ => .error ()

/-- Pydantic validation into `Optional[List[Dict[str, Any]]]`
(`data_attribution`). -/
def asOptAttr : Json → Except Unit (Option Json)
  | .null => .ok none
  | .arr xs =>
    if xs.all (fun x => match x with | .obj _ => true | _ => false) then
      .ok (some (.arr xs))
    else .error ()
  | _ => .error ()

/-- The `coords[i] if len(coords) > i else 0` coordinate access of the
scheduler (list payloads only; `len` of a non-sequence raises). -/
def coordAt (coords : Json) (i : Nat) : Except Unit Json :=
  match coords with
  | .arr xs => .ok (if i < xs.length then xs.getD i .null else .num 0)
  | _ => .error ()

/-- Conversion of one GeoJSON feature into a `StationDataBase`, as performed
inside the loop of `scheduler.AirQualityScheduler.update_berlin_stations`
(extraction plus pydantic validation); any failure is caught by the per-
station handler and the station is skipped. -/
def toRecord (station : Json) : Except Unit StationDataBase := do
  let properties ← pyGet station "properties" (.obj [])
  let geom ← pyGet station "geometry" (.obj [])
  let coords ← pyGet geom "coordinates" (.arr [.num 0, .num 0])
  let uid ← asInt (← pyGet1 properties "uid")
  let name ← asStr (← pyGet properties "name" (.str "Unknown"))
  let url ← asOptStr (← pyGet1 properties "url")
  let aqi ← asOptInt (← pyGet1 properties "aqi")
  let pm25 ← asOptFloat (← pyGet1 properties "pm25")
  let pm10 ← asOptFloat (← pyGet1 properties "pm10")
  let no2 ← asOptFloat (← pyGet1 properties "no2")
  let o3 ← asOptFloat (← pyGet1 properties "o3")
  let co ← asOptFloat (← pyGet1 properties "co")
  let so2 ← asOptFloat (← pyGet1 properties "so2")
  let temperature ← asOptFloat (← pyGet1 properties "temperature")
  let pressure ← asOptFloat (← pyGet1 properties "pressure")
  let humidity ← asOptFloat (← pyGet1 properties "humidity")
  let wind_speed ← asOptFloat (← pyGet1 properties "wind_speed")
  let latitude ← asFloat (← coordAt coords 1)
  let longitude ← asFloat (← coordAt coords 0)
  let station_timestamp ← asOptStr (← pyGet1 properties "time")
  let data_attribution ← asOptAttr (← pyGet1 properties "attributions")
  pure { station_uid := uid, station_name := name, station_url := url,
         aqi := aqi, pm25 := pm25, pm10 := pm10, no2 := no2, o3 := o3,
         co := co, so2 := so2, temperature := temperature,
         pressure := pressure, humidity := humidity,
         wind_speed := wind_speed, latitude := latitude,
         longitude := longitude, station_timestamp := station_timestamp,
         source := "waqi_api", data_attribution := data_attribution,
         region := "Berlin" }

/-- Python `str.lower()` (ASCII case folding, as both Python and the
region strings of this code use). -/
def pyLower (s : String) : String := String.mk (s.data.map Char.toLower)

/-- Embedding of `data_sources.WAQIDataSource.get_station_data`: any region
other than "berlin" (case-insensitively) yields `[]`, as does a raised fetch
exception; otherwise the `features` of the fetched FeatureCollection are
returned. -/
def get_station_data (region : String) (fetched : Except Unit (List Json)) :
    List Json :=
  if pyLower region == "berlin" then
    match fetched with
    | .ok feats => feats
    | .error _ => []
  else []

/-- Embedding of `scheduler.AirQualityScheduler.update_berlin_stations`
downstream of the fetch: empty feature list → early return with no database
access; zero convertible records → early return; otherwise the upsert runs.
The returned counters are the update/insert tallies of the cycle (both zero
on the early returns). -/
def update_berlin_stations (now : Int) (features : List Json)
    (state : List StationData) : List StationData × Nat × Nat :=
  if features.isEmpty then (state, 0, 0)
  else
    let records := features.filterMap (fun f => (toRecord f).toOption)
    if records.isEmpty then (state, 0, 0)
    else upsert_station_data now records state

/-! Helper lemmas about the upsert embedding. -/

theorem applyData_id (r : StationData) (d : StationDataBase) (now : Int) :
    (applyData r d now).id = r.id := rfl

theorem applyData_station_uid (r : StationData) (d : StationDataBase) (now : Int) :
    (applyData r d now).station_uid = r.station_uid := rfl

theorem applyData_last_update (r : StationData) (d : StationDataBase) (now : Int) :
    (applyData r d now).last_update = now := rfl

theorem data_applyData (r : StationData) (d : StationDataBase) (now : Int)
    (h : r.station_uid = d.station_uid) : (applyData r d now).data = d := by
  cases d
  simp only [applyData, StationData.data] at *
  simp [h]

theorem data_rowOfData (d : StationDataBase) (i : Nat) (now : Int) :
    (rowOfData d i now).data = d := by
  cases d
  rfl

theorem rowOfData_station_uid (d : StationDataBase) (i : Nat) (now : Int) :
    (rowOfData d i now).station_uid = d.station_uid := rfl

theorem applyData_of_data_eq (r : StationData) (d : StationDataBase) (now : Int)
    (h : r.data = d) : applyData r d now = { r with last_update := now } := by
  subst h
  cases r
  rfl

theorem applyData_applyData (r : StationData) (d1 d2 : StationDataBase)
    (t1 t2 : Int) : applyData (applyData r d1 t1) d2 t2 = applyData r d2 t2 := rfl

theorem eraseTs_applyData (r : StationData) (d : StationDataBase) (now : Int)
    (h : r.data = d) : (applyData r d now).eraseTs = r.eraseTs := by
  rw [applyData_of_data_eq r d now h]
  cases r
  rfl

theorem findUid_some_uid {s : List StationData} {uid : Int} {r : StationData}
    (h : findUid s uid = some r) : r.station_uid = uid := by
  have := List.find?_some h
  simpa using this

theorem updateFirst_cons_pos {x : StationData} {xs : List StationData}
    {uid : Int} (f : StationData → StationData) (h : x.station_uid = uid) :
    updateFirst (x :: xs) uid f = f x :: xs := by
  simp [updateFirst, h]

theorem updateFirst_cons_neg {x : StationData} {xs : List StationData}
    {uid : Int} (f : StationData → StationData) (h : x.station_uid ≠ uid) :
    updateFirst (x :: xs) uid f = x :: updateFirst xs uid f := by
  simp [updateFirst, h]

theorem findUid_cons_pos {x : StationData} {xs : List StationData} {uid : Int}
    (h : x.station_uid = uid) : findUid (x :: xs) uid = some x := by
  simp [findUid, List.find?_cons_of_pos, h]

theorem findUid_cons_neg {x : StationData} {xs : List StationData} {uid : Int}
    (h : x.station_uid ≠ uid) : findUid (x :: xs) uid = findUid xs uid := by
  simp [findUid, List.find?_cons_of_neg, h]

theorem updateFirst_length (s : List StationData) (uid : Int)
    (f : StationData → StationData) : (updateFirst s uid f).length = s.length := by
  induction s with
  | nil => rfl
  | cons r rs ih =>
    by_cases h : r.station_uid = uid
    · rw [updateFirst_cons_pos f h]
      simp
    · rw [updateFirst_cons_neg f h]
      simp [ih]

theorem findUid_updateFirst_self {s : List StationData} {uid : Int}
    {r : StationData} (f : StationData → StationData)
    (h : findUid s uid = some r)
    (hf : ∀ x, (f x).station_uid = x.station_uid) :
    findUid (updateFirst s uid f) uid = some (f r) := by
  induction s with
  | nil => simp [findUid] at h
  | cons x xs ih =>
    by_cases hx : x.station_uid = uid
    · rw [findUid_cons_pos hx] at h
      cases h
      rw [updateFirst_cons_pos f hx, findUid_cons_pos (by rw [hf, hx])]
    · rw [findUid_cons_neg hx] at h
      rw [updateFirst_cons_neg f hx, findUid_cons_neg hx]
      exact ih h

theorem findUid_updateFirst_ne {s : List StationData} {uid uid' : Int}
    (f : StationData → StationData) (hne : uid ≠ uid')
    (hf : ∀ x, (f x).station_uid = x.station_uid) :
    findUid (updateFirst s uid' f) uid = findUid s uid := by
  induction s with
  | nil => rfl
  | cons x xs ih =>
    by_cases hx : x.station_uid = uid'
    · have hxu : x.station_uid ≠ uid := by rw [hx]; exact fun h => hne h.symm
      rw [updateFirst_cons_pos f hx,
        findUid_cons_neg (by rw [hf]; exact hxu), findUid_cons_neg hxu]
    · rw [updateFirst_cons_neg f hx]
      by_cases hxu : x.station_uid = uid
      · rw [findUid_cons_pos hxu, findUid_cons_pos hxu]
      · rw [findUid_cons_neg hxu, findUid_cons_neg hxu]
        exact ih

theorem map_eraseTs_updateFirst {s : List StationData} {uid : Int}
    {r : StationData} (f : StationData → StationData)
    (h : findUid s uid = some r) (hr : (f r).eraseTs = r.eraseTs) :
    (updateFirst s uid f).map StationData.eraseTs = s.map StationData.eraseTs := by
  induction s with
  | nil => rfl
  | cons x xs ih =>
    by_cases hx : x.station_uid = uid
    · rw [findUid_cons_pos hx] at h
      cases h
      rw [updateFirst_cons_pos f hx]
      simp [hr]
    · rw [findUid_cons_neg hx] at h
      rw [updateFirst_cons_neg f hx]
      simp [ih h]

theorem mem_updateFirst {s : List StationData} {uid : Int}
    {f : StationData → StationData} {r : StationData}
    (h : r ∈ updateFirst s uid f) : r ∈ s ∨ ∃ x, x ∈ s ∧ r = f x := by
  induction s with
  | nil => simp [updateFirst] at h
  | cons x xs ih =>
    by_cases hx : x.station_uid = uid
    · rw [updateFirst_cons_pos f hx, List.mem_cons] at h
      rcases h with h | h
      · exact Or.inr ⟨x, List.mem_cons_self x xs, h⟩
      · exact Or.inl (List.mem_cons_of_mem x h)
    · rw [updateFirst_cons_neg f hx, List.mem_cons] at h
      rcases h with h | h
      · exact Or.inl (h ▸ List.mem_cons_self x xs)
      · rcases ih h with h' | ⟨y, hy, hr⟩
        · exact Or.inl (List.mem_cons_of_mem x h')
        · exact Or.inr ⟨y, List.mem_cons_of_mem x hy, hr⟩

theorem updateFirst_updateFirst (s : List StationData) (uid : Int)
    (f g : StationData → StationData)
    (hf : ∀ x, (f x).station_uid = x.station_uid) :
    updateFirst (updateFirst s uid f) uid g = updateFirst s uid (fun x => g (f x)) := by
  induction s with
  | nil => rfl
  | cons x xs ih =>
    by_cases hx : x.station_uid = uid
    · rw [updateFirst_cons_pos f hx, updateFirst_cons_pos g (by rw [hf]; exact hx),
        updateFirst_cons_pos _ hx]
    · rw [updateFirst_cons_neg f hx, updateFirst_cons_neg g hx,
        updateFirst_cons_neg _ hx, ih]

theorem findUid_append (a b : List StationData) (uid : Int) :
    findUid (a ++ b) uid = (findUid a uid).or (findUid b uid) := by
  simp [findUid, List.find?_append]

/-- Batch entries whose uid is mentioned nowhere in the remaining batch leave
both the committed rows and the pending rows for that uid untouched. -/
theorem upsertLoop_frame (now : Int) (batch : List StationDataBase)
    (st : LoopSt) (uid : Int) (h : ∀ d ∈ batch, d.station_uid ≠ uid) :
    findUid (upsertLoop now batch st).committed uid = findUid st.committed uid ∧
    findUid (upsertLoop now batch st).pending uid = findUid st.pending uid := by
  induction batch generalizing st with
  | nil => exact ⟨rfl, rfl⟩
  | cons d rest ih =>
    have hd : d.station_uid ≠ uid := h d (List.mem_cons_self d rest)
    have hrest : ∀ d' ∈ rest, d'.station_uid ≠ uid :=
      fun d' hd' => h d' (List.mem_cons_of_mem d hd')
    rw [upsertLoop]
    cases hfind : findUid st.committed d.station_uid with
    | some r =>
      have := ih
        { st with
          committed := updateFirst st.committed d.station_uid
            (fun r => applyData r d now)
          upd := st.upd + 1 } hrest
      refine ⟨?_, this.2⟩
      rw [this.1]
      exact findUid_updateFirst_ne _ (fun hu => hd hu.symm)
        (fun x => applyData_station_uid x d now)
    | none =>
      have := ih
        { st with
          pending := st.pending ++ [rowOfData d st.nextKey now]
          nextKey := st.nextKey + 1
          ins := st.ins + 1 } hrest
      refine ⟨this.1, ?_⟩
      rw [this.2]
      simp only [findUid_append]
      have : findUid [rowOfData d st.nextKey now] uid = none := by
        simp [findUid, rowOfData_station_uid]
        intro hu
        exact absurd hu (by simpa [rowOfData] using hd)
      rw [this, Option.or_none]

/-- Every row of the table after `upsert_station_data` is either an original
row of the input table or carries the cycle timestamp: a single timestamp,
captured once, stamps everything the call touches. -/
theorem upsertLoop_touch (now : Int) (batch : List StationDataBase)
    (st : LoopSt) :
    ∀ r ∈ (upsertLoop now batch st).committed ++ (upsertLoop now batch st).pending,
      r ∈ st.committed ++ st.pending ∨ r.last_update = now := by
  induction batch generalizing st with
  | nil => exact fun r hr => Or.inl hr
  | cons d rest ih =>
    intro r hr
    rw [upsertLoop] at hr
    cases hfind : findUid st.committed d.station_uid with
    | some r0 =>
      rw [hfind] at hr
      rcases ih _ r hr with hmem | hts
      · rw [List.mem_append] at hmem
        rcases hmem with hc | hp
        · rcases mem_updateFirst hc with hc' | ⟨x, _, hx⟩
          · exact Or.inl (List.mem_append.mpr (Or.inl hc'))
          · exact Or.inr (hx ▸ applyData_last_update x d now)
        · exact Or.inl (List.mem_append.mpr (Or.inr hp))
      · exact Or.inr hts
    | none =>
      rw [hfind] at hr
      rcases ih _ r hr with hmem | hts
      · rw [List.mem_append] at hmem
        rcases hmem with hc | hp
        · exact Or.inl (List.mem_append.mpr (Or.inl hc))
        · rw [List.mem_append] at hp
          rcases hp with hp | hnew
          · exact Or.inl (List.mem_append.mpr (Or.inr hp))
          · have : r = rowOfData d st.nextKey now := by simpa using hnew
            exact Or.inr (this ▸ rfl)
      · exact Or.inr hts

/-- First application: after running the upsert loop on a batch with
pairwise-distinct uids (pending rows not yet covering those uids), every
batch entry has a row in the final table — committed followed by flushed
pending — whose lookup by uid succeeds and whose data fields are exactly the
entry's, stamped with the cycle timestamp. -/
theorem upsertLoop_found (now : Int) (batch : List StationDataBase)
    (st : LoopSt)
    (hdist : batch.Pairwise (fun a b => a.station_uid ≠ b.station_uid))
    (hpend : ∀ d ∈ batch, findUid st.pending d.station_uid = none) :
    ∀ d ∈ batch, ∃ r,
      findUid ((upsertLoop now batch st).committed ++
        (upsertLoop now batch st).pending) d.station_uid = some r ∧
      r.data = d ∧ r.last_update = now := by
  induction batch generalizing st with
  | nil => intro d hd; simp at hd
  | cons d0 rest ih =>
    have hd0rest : ∀ d' ∈ rest, d0.station_uid ≠ d'.station_uid :=
      (List.pairwise_cons.mp hdist).1
    have hdistr : rest.Pairwise (fun a b => a.station_uid ≠ b.station_uid) :=
      (List.pairwise_cons.mp hdist).2
    intro d hd
    rw [List.mem_cons] at hd
    rw [upsertLoop]
    cases hfind : findUid st.committed d0.station_uid with
    | some r0 =>
      set st' : LoopSt :=
        { st with
          committed := updateFirst st.committed d0.station_uid
            (fun r => applyData r d0 now)
          upd := st.upd + 1 } with hst'
      have hpend' : ∀ d' ∈ rest, findUid st'.pending d'.station_uid = none :=
        fun d' hd' => hpend d' (List.mem_cons_of_mem d0 hd')
      rcases hd with hd | hd
      · subst hd
        have hframe := upsertLoop_frame now rest st' d.station_uid
          (fun d' hd' => fun h => hd0rest d' hd' h.symm)
        refine ⟨applyData r0 d now, ?_, ?_, rfl⟩
        · rw [findUid_append, hframe.1, hframe.2]
          have : findUid st'.committed d.station_uid
              = some (applyData r0 d now) :=
            findUid_updateFirst_self _ hfind
              (fun x => applyData_station_uid x d now)
          rw [this]
          rfl
        · exact data_applyData r0 d now (findUid_some_uid hfind)
      · exact ih st' hdistr hpend' d hd
    | none =>
      set st' : LoopSt :=
        { st with
          pending := st.pending ++ [rowOfData d0 st.nextKey now]
          nextKey := st.nextKey + 1
          ins := st.ins + 1 } with hst'
      have hpend' : ∀ d' ∈ rest, findUid st'.pending d'.station_uid = none := by
        intro d' hd'
        rw [hst']
        simp only [findUid_append]
        rw [hpend d' (List.mem_cons_of_mem d0 hd')]
        have : findUid [rowOfData d0 st.nextKey now] d'.station_uid = none := by
          simp [findUid, rowOfData_station_uid]
          intro hu
          exact absurd hu (by simpa [rowOfData] using hd0rest d' hd')
        rw [this]
        rfl
      rcases hd with hd | hd
      · subst hd
        have hframe := upsertLoop_frame now rest st' d.station_uid
          (fun d' hd' => fun h => hd0rest d' hd' h.symm)
        refine ⟨rowOfData d st.nextKey now, ?_, data_rowOfData d _ now, rfl⟩
        rw [findUid_append, hframe.1, hframe.2, hst']
        have hc : findUid st.committed d.station_uid = none := hfind
        rw [hc]
        simp only [Option.none_or, findUid_append]
        rw [hpend d (List.mem_cons_self d rest)]
        simp [findUid, rowOfData_station_uid]
      · exact ih st' hdistr hpend' d hd

/-- Second application: when every batch entry already has a stored row whose
data fields equal the entry, the upsert loop only restamps timestamps —
every entry takes the update branch, nothing is inserted, and the table is
unchanged up to `last_update`. -/
theorem upsertLoop_allFound (now : Int) (batch : List StationDataBase)
    (st : LoopSt)
    (h : ∀ d ∈ batch, ∃ r, findUid st.committed d.station_uid = some r ∧
      r.data = d) :
    (upsertLoop now batch st).committed.map StationData.eraseTs
        = st.committed.map StationData.eraseTs ∧
    (upsertLoop now batch st).pending = st.pending ∧
    (upsertLoop now batch st).upd = st.upd + batch.length ∧
    (upsertLoop now batch st).ins = st.ins := by
  induction batch generalizing st with
  | nil => exact ⟨rfl, rfl, rfl, rfl⟩
  | cons d0 rest ih =>
    obtain ⟨r0, hfind, hdata⟩ := h d0 (List.mem_cons_self d0 rest)
    rw [upsertLoop, hfind]
    set st' : LoopSt :=
      { st with
        committed := updateFirst st.committed d0.station_uid
          (fun r => applyData r d0 now)
        upd := st.upd + 1 } with hst'
    have hmap : st'.committed.map StationData.eraseTs
        = st.committed.map StationData.eraseTs :=
      map_eraseTs_updateFirst _ hfind (eraseTs_applyData r0 d0 now hdata)
    have h' : ∀ d ∈ rest, ∃ r, findUid st'.committed d.station_uid = some r ∧
        r.data = d := by
      intro d hd
      obtain ⟨r, hfr, hdr⟩ := h d (List.mem_cons_of_mem d0 hd)
      by_cases huid : d.station_uid = d0.station_uid
      · have hr0 : r = r0 := by
          rw [huid, hfind] at hfr
          exact (Option.some_inj.mp hfr).symm
        refine ⟨applyData r0 d0 now, ?_, ?_⟩
        · rw [hst', huid]
          exact findUid_updateFirst_self _ hfind
            (fun x => applyData_station_uid x d0 now)
        · have hdd : d = d0 := by
            rw [← hdr, hr0, hdata]
          rw [data_applyData r0 d0 now (findUid_some_uid hfind), hdd]
      · refine ⟨r, ?_, hdr⟩
        rw [hst']
        rw [findUid_updateFirst_ne _ huid
          (fun x => applyData_station_uid x d0 now)]
        exact hfr
    obtain ⟨ih1, ih2, ih3, ih4⟩ := ih st' h'
    refine ⟨?_, ih2, ?_, ih4⟩
    · rw [ih1, hmap]
    · rw [ih3]
      show st.upd + 1 + rest.length = st.upd + (rest.length + 1)
      omega

/-- C3: a reconciliation cycle that produces zero usable readings is a
no-op success: the scheduler returns before touching the database when no
features arrive or none converts, and the upsert executor applied to an
empty plan leaves the table unchanged and reports zero updates and zero
inserts. -/
theorem empty_batch_noop :
    (∀ (now : Int) (features : List Json) (state : List StationData),
      features.filterMap (fun f => (toRecord f).toOption) = [] →
      update_berlin_stations now features state = (state, 0, 0)) ∧
    ∀ (now : Int) (state : List StationData),
      upsert_station_data now [] state = (state, 0, 0) := by
  constructor
  · intro now features state h
    by_cases he : features.isEmpty
    · simp [update_berlin_stations, he]
    · simp [update_berlin_stations, he, h]
  · intro now state
    simp [upsert_station_data, upsertLoop]

/-- Witness for `empty_batch_noop` at a concrete unconvertible feature. -/
theorem empty_batch_noop_witness :
    ([Json.null].filterMap (fun f => (toRecord f).toOption) = [] ∧
      update_berlin_stations 5 [Json.null] [] = ([], 0, 0)) ∧
    upsert_station_data 5 [] [] = ([], 0, 0) :=
  ⟨⟨rfl, empty_batch_noop.1 5 [Json.null] [] rfl⟩, empty_batch_noop.2 5 []⟩

/-- C2: when an incoming reading's `station_uid` matches a stored row, the
upsert mutates that row in place: every field except `station_uid` and the
surrogate key `id` is overwritten with the incoming value (absent values
included), the table keeps its length (no second row), the call counts one
update and zero inserts; moreover every row of the table after any upsert
call is either an untouched original row or carries the single cycle
timestamp captured before the loop. -/
theorem upsert_update_overwrites_in_place :
    (∀ (now : Int) (d : StationDataBase) (state : List StationData)
      (r : StationData), findUid state d.station_uid = some r →
      upsert_station_data now [d] state
        = (updateFirst state d.station_uid (fun x => applyData x d now), 1, 0) ∧
      applyData r d now
        = { id := r.id, station_uid := r.station_uid,
            station_name := d.station_name, station_url := d.station_url,
            aqi := d.aqi, pm25 := d.pm25, pm10 := d.pm10, no2 := d.no2,
            o3 := d.o3, co := d.co, so2 := d.so2,
            temperature := d.temperature, pressure := d.pressure,
            humidity := d.humidity, wind_speed := d.wind_speed,
            latitude := d.latitude, longitude := d.longitude,
            station_timestamp := d.station_timestamp, source := d.source,
            data_attribution := d.data_attribution, region := d.region,
            last_update := now } ∧
      (updateFirst state d.station_uid (fun x => applyData x d now)).length
        = state.length) ∧
    ∀ (now : Int) (batch : List StationDataBase) (state : List StationData)
      (r : StationData), r ∈ (upsert_station_data now batch state).1 →
      r ∈ state ∨ r.last_update = now := by
  constructor
  · intro now d state r h
    refine ⟨?_, rfl, updateFirst_length state d.station_uid _⟩
    simp [upsert_station_data, upsertLoop, h]
  · intro now batch state r hr
    have := upsertLoop_touch now batch ⟨state, [], maxKey state + 1, 0, 0⟩ r
      (by simpa [upsert_station_data] using hr)
    simpa using this

/-- Concrete reading used by the C2 witness. -/
def c2Reading : StationDataBase :=
  { station_uid := 7, station_name := "new", latitude := 1, longitude := 2 }

/-- Concrete stored row used by the C2 witness (it has a `pm25` value that
the incoming reading lacks, exercising the overwrite-with-absent case). -/
def c2Row : StationData :=
  rowOfData { station_uid := 7, station_name := "old", pm25 := some 5,
              latitude := 3, longitude := 4 } 3 50

/-- Witness for `upsert_update_overwrites_in_place` at concrete inputs. -/
theorem upsert_update_overwrites_in_place_witness :
    (findUid [c2Row] c2Reading.station_uid = some c2Row ∧
      upsert_station_data 100 [c2Reading] [c2Row]
        = (updateFirst [c2Row] c2Reading.station_uid
            (fun x => applyData x c2Reading 100), 1, 0) ∧
      (applyData c2Row c2Reading 100).pm25 = none ∧
      (applyData c2Row c2Reading 100).id = 3) ∧
    (applyData c2Row c2Reading 100 ∈ ([c2Row] : List StationData) ∨
      (applyData c2Row c2Reading 100).last_update = 100) := by
  have h : findUid [c2Row] c2Reading.station_uid = some c2Row := by
    simp [findUid, c2Row, c2Reading, rowOfData]
  have hm : (upsert_station_data 100 [c2Reading] [c2Row]).1
      = [applyData c2Row c2Reading 100] := rfl
  refine ⟨⟨h, (upsert_update_overwrites_in_place.1 100 c2Reading [c2Row] c2Row h).1,
    rfl, rfl⟩, ?_⟩
  exact upsert_update_overwrites_in_place.2 100 [c2Reading] [c2Row] _
    (by rw [hm]; exact List.mem_singleton.mpr rfl)

/-- C6: reconciliation is idempotent up to the timestamp — running the
upsert twice with the same batch of readings with pairwise-distinct uids
yields `batch.length` updates and zero inserts the second time, and leaves
every stored field identical to the state after the first application except
`last_update`. -/
theorem upsert_idempotent_up_to_timestamp (now1 now2 : Int)
    (batch : List StationDataBase) (state : List StationData)
    (hdist : batch.Pairwise (fun a b => a.station_uid ≠ b.station_uid)) :
    (upsert_station_data now2 batch
        (upsert_station_data now1 batch state).1).2.1 = batch.length ∧
    (upsert_station_data now2 batch
        (upsert_station_data now1 batch state).1).2.2 = 0 ∧
    (upsert_station_data now2 batch
        (upsert_station_data now1 batch state).1).1.map StationData.eraseTs
      = (upsert_station_data now1 batch state).1.map StationData.eraseTs := by
  have h1 := upsertLoop_found now1 batch ⟨state, [], maxKey state + 1, 0, 0⟩
    hdist (fun d _ => rfl)
  set out1 := upsertLoop now1 batch ⟨state, [], maxKey state + 1, 0, 0⟩
    with hout1
  have hs1 : (upsert_station_data now1 batch state).1
      = out1.committed ++ out1.pending := rfl
  set s1 := out1.committed ++ out1.pending with hs1def
  have h2 := upsertLoop_allFound now2 batch
    ⟨s1, [], maxKey s1 + 1, 0, 0⟩
    (fun d hd => by
      obtain ⟨r, hr, hdata, _⟩ := h1 d hd
      exact ⟨r, hr, hdata⟩)
  obtain ⟨h2map, h2pend, h2upd, h2ins⟩ := h2
  refine ⟨?_, ?_, ?_⟩
  · rw [hs1]
    show (upsertLoop now2 batch ⟨s1, [], maxKey s1 + 1, 0, 0⟩).upd = batch.length
    rw [h2upd]
    simp
  · rw [hs1]
    show (upsertLoop now2 batch ⟨s1, [], maxKey s1 + 1, 0, 0⟩).ins = 0
    rw [h2ins]
  · rw [hs1]
    show ((upsertLoop now2 batch ⟨s1, [], maxKey s1 + 1, 0, 0⟩).committed ++
        (upsertLoop now2 batch ⟨s1, [], maxKey s1 + 1, 0, 0⟩).pending).map
          StationData.eraseTs
      = s1.map StationData.eraseTs
    rw [h2pend]
    simp only [List.append_nil]
    rw [h2map]

/-- Concrete readings used by the C6 witness. -/
def c6A : StationDataBase :=
  { station_uid := 1, station_name := "a", latitude := 1, longitude := 2 }

/-- Second concrete reading used by the C6 witness. -/
def c6B : StationDataBase :=
  { station_uid := 2, station_name := "b", aqi := some 9, latitude := 3,
    longitude := 4 }

/-- Witness for `upsert_idempotent_up_to_timestamp` at a concrete two-element
batch applied from the empty table. -/
theorem upsert_idempotent_up_to_timestamp_witness :
    ([c6A, c6B].Pairwise (fun a b => a.station_uid ≠ b.station_uid)) ∧
    (upsert_station_data 20 [c6A, c6B]
        (upsert_station_data 10 [c6A, c6B] []).1).2.1 = 2 ∧
    (upsert_station_data 20 [c6A, c6B]
        (upsert_station_data 10 [c6A, c6B] []).1).2.2 = 0 ∧
    (upsert_station_data 20 [c6A, c6B]
        (upsert_station_data 10 [c6A, c6B] []).1).1.map StationData.eraseTs
      = (upsert_station_data 10 [c6A, c6B] []).1.map StationData.eraseTs := by
  have hdist : [c6A, c6B].Pairwise (fun a b => a.station_uid ≠ b.station_uid) := by
    simp [c6A, c6B]
  exact ⟨hdist, upsert_idempotent_up_to_timestamp 10 20 [c6A, c6B] [] hdist⟩

/-- Reading used by the C1 failing-input theorem. -/
def c1Reading : StationDataBase :=
  { station_uid := 7, station_name := "dup", latitude := 1, longitude := 2 }

/-- C1 (failing input): from the empty table — which trivially has at most
one row per uid — one reconciliation cycle whose batch contains the same
`station_uid` twice ends with TWO stored rows for that uid: the session has
`autoflush=False`, so the second lookup cannot see the first pending insert
and both entries take the insert branch.  This contradicts the claimed
invariant (and the function's own docstring, "one per station_uid"). -/
theorem upsert_duplicate_new_uid_creates_two_rows :
    ((upsert_station_data 100 [c1Reading, c1Reading] []).1.countP
      (fun r => r.station_uid == 7)) = 2 ∧
    (upsert_station_data 100 [c1Reading, c1Reading] []).2 = (0, 2) ∧
    ((upsert_station_data 100 [c1Reading, c1Reading] []).1.map (fun r => r.id))
      = [1, 2] :=
  ⟨rfl, rfl, rfl⟩

/-- Stored row used by the C7 counterexample and witness. -/
def c7Row : StationData :=
  rowOfData { station_uid := 7, station_name := "old", aqi := some 1,
              latitude := 1, longitude := 2 } 1 50

/-- First duplicate-target reading used by C7. -/
def c7A : StationDataBase :=
  { station_uid := 7, station_name := "A", aqi := some 11, latitude := 1,
    longitude := 2 }

/-- Second duplicate-target reading used by C7. -/
def c7B : StationDataBase :=
  { station_uid := 7, station_name := "B", aqi := some 22, latitude := 1,
    longitude := 2 }

/-- C7 (counterexample): a plan with two entries aimed at the same stored
`station_uid` is NOT rejected — no `InvariantViolation` exists anywhere in
the code — and the cycle is not aborted: the batch is silently applied (both
entries count as updates and the later entry's values end up in the row),
refuting the claim that the executor raises and aborts instead of applying
such a batch. -/
theorem upsert_duplicate_targets_no_abort_counterexample :
    (upsert_station_data 100 [c7A, c7B] [c7Row]).2 = (2, 0) ∧
    ((upsert_station_data 100 [c7A, c7B] [c7Row]).1.map
      (fun r => r.station_name)) = ["B"] ∧
    ((upsert_station_data 100 [c7A, c7B] [c7Row]).1.map (fun r => r.aqi))
      = [some 22] ∧
    c7Row.station_name = "old" :=
  ⟨rfl, rfl, rfl, rfl⟩

/-- C7 (amended): on duplicate `station_uid` targets aimed at an existing
row, `upsert_station_data` raises nothing and applies the entries in order —
both hit the same row, the later entry's values win, the call reports two
updates and zero inserts. -/
theorem upsert_duplicate_targets_silently_applied (now : Int)
    (d1 d2 : StationDataBase) (state : List StationData) (r : StationData)
    (huid : d1.station_uid = d2.station_uid)
    (h : findUid state d1.station_uid = some r) :
    upsert_station_data now [d1, d2] state
      = (updateFirst state d1.station_uid (fun x => applyData x d2 now), 2, 0) := by
  have h2 : findUid (updateFirst state d1.station_uid
      (fun x => applyData x d1 now)) d2.station_uid
      = some (applyData r d1 now) := by
    rw [← huid]
    exact findUid_updateFirst_self _ h (fun x => applyData_station_uid x d1 now)
  simp only [upsert_station_data, upsertLoop, h, h2]
  rw [← huid,
    updateFirst_updateFirst state d1.station_uid _ _
      (fun x => applyData_station_uid x d1 now)]
  simp only [applyData_applyData, List.append_nil]

/-- Witness for `upsert_duplicate_targets_silently_applied` at the concrete
duplicate batch. -/
theorem upsert_duplicate_targets_silently_applied_witness :
    (c7A.station_uid = c7B.station_uid ∧
      findUid [c7Row] c7A.station_uid = some c7Row) ∧
    upsert_station_data 100 [c7A, c7B] [c7Row]
      = (updateFirst [c7Row] c7A.station_uid
          (fun x => applyData x c7B 100), 2, 0) := by
  have h : findUid [c7Row] c7A.station_uid = some c7Row := by
    simp [findUid, c7Row, c7A, rowOfData]
  exact ⟨⟨rfl, h⟩,
    upsert_duplicate_targets_silently_applied 100 c7A c7B [c7Row] c7Row rfl h⟩

theorem length_sub_filter_not {α : Type} (p : α → Bool) (l : List α) :
    l.length - (l.filter (fun r => !(p r))).length = (l.filter p).length := by
  induction l with
  | nil => rfl
  | cons x xs ih =>
    have hle := List.length_filter_le (fun r => !(p r)) xs
    by_cases h : p x <;> simp [List.filter_cons, h] <;> omega

/-- C8: the retention sweep with horizon `days_to_keep` deletes exactly the
stored rows whose `last_update` strictly precedes `now - horizon` (rows at
or after the cutoff are kept), reports the number of deleted rows, and is
idempotent: sweeping the already-swept table again deletes zero rows. -/
theorem retention_sweep_spec :
    (∀ (now days : Int) (state : List StationData) (r : StationData),
      r ∈ state →
      (r ∈ (cleanup_old_station_data now days state).1 ↔
        ¬ r.last_update < now - days * 86400)) ∧
    (∀ (now days : Int) (state : List StationData),
      (cleanup_old_station_data now days state).2
        = (state.filter (fun r => r.last_update < now - days * 86400)).length) ∧
    ∀ (now days : Int) (state : List StationData),
      cleanup_old_station_data now days (cleanup_old_station_data now days state).1
        = ((cleanup_old_station_data now days state).1, 0) := by
  refine ⟨?_, ?_, ?_⟩
  · intro now days state r hr
    simp [cleanup_old_station_data, List.mem_filter, hr]
  · intro now days state
    simp only [cleanup_old_station_data]
    exact length_sub_filter_not _ state
  · intro now days state
    simp only [cleanup_old_station_data, List.filter_filter]
    have hf : (List.filter (fun a : StationData =>
        !decide (a.last_update < now - days * 86400) &&
          !decide (a.last_update < now - days * 86400)) state)
        = List.filter (fun a : StationData =>
            !decide (a.last_update < now - days * 86400)) state := by
      congr 1
      funext a
      exact Bool.and_self _
    rw [hf]
    simp

/-- Rows and scenario of §8 property 6: one row ten days old, one row one
day old, seven-day horizon. -/
def c8Old : StationData :=
  rowOfData { station_uid := 1, station_name := "x", latitude := 1,
              longitude := 2 } 1 (1000000 - 10 * 86400)

/-- The one-day-old row of the C8 scenario. -/
def c8New : StationData :=
  rowOfData { station_uid := 2, station_name := "y", latitude := 3,
              longitude := 4 } 2 (1000000 - 1 * 86400)

/-- Witness for `retention_sweep_spec`: the spec's own scenario — the
ten-day-old row is deleted (it is no longer a member), the one-day-old row
survives, the count is 1, and resweeping deletes nothing. -/
theorem retention_sweep_spec_witness :
    (c8Old ∈ [c8Old, c8New] ∧
      ¬ (c8Old ∈ (cleanup_old_station_data 1000000 7 [c8Old, c8New]).1 ↔
        ¬ c8Old.last_update < 1000000 - 7 * 86400) → False) ∧
    (cleanup_old_station_data 1000000 7 [c8Old, c8New]).2 = 1 ∧
    cleanup_old_station_data 1000000 7
        (cleanup_old_station_data 1000000 7 [c8Old, c8New]).1
      = ((cleanup_old_station_data 1000000 7 [c8Old, c8New]).1, 0) := by
  refine ⟨?_, ?_, retention_sweep_spec.2.2 1000000 7 [c8Old, c8New]⟩
  · rintro ⟨hmem, hneg⟩
    exact hneg (retention_sweep_spec.1 1000000 7 [c8Old, c8New] c8Old hmem)
  · rw [retention_sweep_spec.2.1 1000000 7 [c8Old, c8New]]
    rfl

mutual

theorem Json.beq_refl : ∀ (j : Json), Json.beq j j = true
  | .null => rfl
  | .bool b => by simp [Json.beq]
  | .num q => by simp [Json.beq]
  | .str s => by simp [Json.beq]
  | .arr xs => by
    show Json.beq.beqList xs xs = true
    exact Json.beqList_refl xs
  | .obj fs => by
    show Json.beq.beqObj fs fs = true
    exact Json.beqObj_refl fs

theorem Json.beqList_refl : ∀ (xs : List Json), Json.beq.beqList xs xs = true
  | [] => rfl
  | x :: xs => by
    show (Json.beq x x && Json.beq.beqList xs xs) = true
    rw [Json.beq_refl x, Json.beqList_refl xs]
    rfl

theorem Json.beqObj_refl : ∀ (xs : List (String × Json)),
    Json.beq.beqObj xs xs = true
  | [] => rfl
  | (k, v) :: xs => by
    show ((k == k) && Json.beq v v && Json.beq.beqObj xs xs) = true
    rw [Json.beq_refl v, Json.beqObj_refl xs]
    simp

end

theorem dictLookup_singleton (k v : Json) : dictLookup [(k, v)] k = some v := by
  have : (k == k) = true := Json.beq_refl k
  simp [dictLookup, this]

theorem dictLookup_cons_pos {k0 v0 : Json} {rest : StationDict} {u : Json}
    (h : (k0 == u) = true) : dictLookup ((k0, v0) :: rest) u = some v0 := by
  simp [dictLookup, h]

theorem dictLookup_cons_neg {k0 v0 : Json} {rest : StationDict} {u : Json}
    (h : ¬ (k0 == u) = true) :
    dictLookup ((k0, v0) :: rest) u = dictLookup rest u := by
  simp [dictLookup, h]

theorem dictInsert_cons_neg {k0 v0 : Json} {rest : StationDict} {k v : Json}
    (h : ¬ (k0 == k) = true) :
    dictInsert ((k0, v0) :: rest) k v = (k0, v0) :: dictInsert rest k v := by
  simp [dictInsert, h]

theorem mem_dictInsert_of_mem {d : StationDict} {e : Json × Json} (k v : Json)
    (h : e ∈ d) (hk : dictLookup d k = none) : e ∈ dictInsert d k v := by
  induction d with
  | nil => simp at h
  | cons kv rest ih =>
    obtain ⟨k0, v0⟩ := kv
    by_cases hk0 : (k0 == k) = true
    · rw [dictLookup_cons_pos hk0] at hk
      exact absurd hk (by simp)
    · rw [dictLookup_cons_neg hk0] at hk
      rw [dictInsert_cons_neg hk0]
      rw [List.mem_cons] at h
      rcases h with h | h
      · exact h ▸ List.mem_cons_self _ _
      · exact List.mem_cons_of_mem _ (ih h hk)

theorem dictLookup_dictInsert_of_some {d : StationDict} {u v : Json}
    (k w : Json) (h : dictLookup d u = some v) (hk : dictLookup d k = none) :
    dictLookup (dictInsert d k w) u = some v := by
  induction d with
  | nil => simp [dictLookup] at h
  | cons kv rest ih =>
    obtain ⟨k0, v0⟩ := kv
    by_cases hk0 : (k0 == k) = true
    · rw [dictLookup_cons_pos hk0] at hk
      exact absurd hk (by simp)
    · rw [dictLookup_cons_neg hk0] at hk
      rw [dictInsert_cons_neg hk0]
      by_cases hu0 : (k0 == u) = true
      · rw [dictLookup_cons_pos hu0] at h
        rw [dictLookup_cons_pos hu0]
        exact h
      · rw [dictLookup_cons_neg hu0] at h
        rw [dictLookup_cons_neg hu0]
        exact ih h hk

/-- Shape of one accepted search-API station: either the dict is unchanged,
or the station is inserted under a key that was absent, in converted form,
with coordinates inside the configured `BERLIN_BOUNDS` rectangle. -/
theorem searchStep_shape (dict : StationDict) (s : Json) (d' : StationDict)
    (h : searchStep dict s = .ok d') :
    d' = dict ∨ ∃ (k : Json) (lat lon : ℚ) (aqi name time : Json),
      (dictLookup dict k).isNone = true ∧
      BERLIN_BOUNDS_lat1 ≤ lat ∧ lat ≤ BERLIN_BOUNDS_lat2 ∧
      BERLIN_BOUNDS_lon1 ≤ lon ∧ lon ≤ BERLIN_BOUNDS_lon2 ∧
      d' = dictInsert dict k
        (.obj [("uid", k), ("lat", .num lat), ("lon", .num lon), ("aqi", aqi),
               ("station", .obj [("name", name), ("time", time)])]) := by
  unfold searchStep at h
  simp only [bind, Except.bind, pure, Except.pure] at h
  repeat' split at h
  all_goals try exact Except.noConfusion h
  all_goals try (injection h with h; exact Or.inl h.symm)
  injection h with h
  subst h
  refine Or.inr ⟨_, _, _, _, _, _, ?_, ?_, ?_, ?_, ?_, rfl⟩ <;>
    simp_all only [Bool.and_eq_true]

theorem searchFold_preserves (ss : List Json) (dict : StationDict)
    (u v : Json) (h : dictLookup dict u = some v) :
    dictLookup (searchFold dict ss) u = some v ∧
    ((u, v) ∈ dict → (u, v) ∈ searchFold dict ss) := by
  induction ss generalizing dict with
  | nil => exact ⟨h, fun hm => hm⟩
  | cons s rest ih =>
    rw [searchFold]
    cases hs : searchStep dict s with
    | error e => exact ⟨h, fun hm => hm⟩
    | ok d' =>
      rcases searchStep_shape dict s d' hs with hd | ⟨k, lat, lon, aqi, name,
        time, hnone, _, _, _, _, hins⟩
      · subst hd
        exact ih _ h
      · subst hins
        have hk : dictLookup dict k = none := by
          simpa [Option.isNone_iff_eq_none] using hnone
        have h' := dictLookup_dictInsert_of_some k
          (.obj [("uid", k), ("lat", .num lat), ("lon", .num lon), ("aqi", aqi),
                 ("station", .obj [("name", name), ("time", time)])]) h hk
        refine ⟨(ih _ h').1, fun hm => (ih _ h').2 ?_⟩
        exact mem_dictInsert_of_mem _ _ hm hk

theorem searchPass_preserves (resp : ApiResp) (dict : StationDict)
    (u v : Json) (h : dictLookup dict u = some v) :
    dictLookup (searchPass dict resp) u = some v ∧
    ((u, v) ∈ dict → (u, v) ∈ searchPass dict resp) := by
  cases resp with
  | exn => exact ⟨h, fun hm => hm⟩
  | status code body =>
    rw [searchPass]
    repeat' split
    all_goals try exact ⟨h, fun hm => hm⟩
    all_goals exact searchFold_preserves _ dict u v h

theorem mem_dictInsert_elim {d : StationDict} {k v : Json} {e : Json × Json}
    (h : e ∈ dictInsert d k v) : e ∈ d ∨ e = (k, v) := by
  induction d with
  | nil => simpa [dictInsert] using h
  | cons kv rest ih =>
    obtain ⟨k0, v0⟩ := kv
    by_cases hk0 : (k0 == k) = true
    · simp only [dictInsert, hk0, if_pos, List.mem_cons] at h
      rcases h with h | h
      · exact Or.inr h
      · exact Or.inl (List.mem_cons_of_mem _ h)
    · rw [dictInsert_cons_neg hk0, List.mem_cons] at h
      rcases h with h | h
      · exact Or.inl (h ▸ List.mem_cons_self _ _)
      · rcases ih h with h' | h'
        · exact Or.inl (List.mem_cons_of_mem _ h')
        · exact Or.inr h'

/-- C4: first-seen-wins within a fetch batch — a uid entered into
`all_stations` by the bounding-box pass is never replaced by the
keyword-search pass run after it, and the feature emitted for that uid into
the normalized batch is built from the bounding-box reading's stored
value. -/
theorem first_seen_wins (nowIso : String) (bounds search : ApiResp)
    (u v : Json) (d0 : StationDict)
    (hb : boundsPass bounds = .ok d0) (hu : dictLookup d0 u = some v) :
    allStations bounds search = .ok (searchPass d0 search) ∧
    dictLookup (searchPass d0 search) u = some v ∧
    ((u, v) ∈ d0 → ∀ f, emitFeature nowIso u v = some f →
      f ∈ fetch_berlin_stations nowIso bounds search) := by
  have hall : allStations bounds search = .ok (searchPass d0 search) := by
    simp [allStations, hb, bind, Except.bind, pure, Except.pure]
  refine ⟨hall, (searchPass_preserves search d0 u v hu).1, ?_⟩
  intro hm f hf
  have hmem : (u, v) ∈ searchPass d0 search :=
    (searchPass_preserves search d0 u v hu).2 hm
  rw [fetch_berlin_stations, hall]
  exact List.mem_filterMap.mpr ⟨(u, v), hmem, hf⟩


/-- Bounding-box station of the C4 witness (uid 5, aqi 42). -/
def c4BndSt : Json :=
  .obj [("uid", .num 5), ("lat", .num 52.5), ("lon", .num 13.4),
        ("aqi", .num 42),
        ("station", .obj [("name", .str "bounds-station"),
                          ("time", .str "t0")])]

/-- Keyword-search station of the C4 witness with the SAME uid 5 but a
different aqi (99) and in-bounds coordinates. -/
def c4SrchSt5 : Json :=
  .obj [("uid", .num 5), ("aqi", .num 99),
        ("station", .obj [("name", .str "search-station"),
                          ("geo", .arr [.num 52.5, .num 13.4])])]

/-- Second keyword-search station of the C4 witness (fresh uid 7). -/
def c4SrchSt7 : Json :=
  .obj [("uid", .num 7), ("aqi", .num 8),
        ("station", .obj [("name", .str "other"),
                          ("geo", .arr [.num 52.4, .num 13.5])])]

/-- Bounds-API response of the C4 witness. -/
def c4Bounds : ApiResp :=
  .status 200 (.obj [("status", .str "ok"), ("data", .arr [c4BndSt])])

/-- Search-API response of the C4 witness. -/
def c4Search : ApiResp :=
  .status 200 (.obj [("status", .str "ok"),
                     ("data", .arr [c4SrchSt5, c4SrchSt7])])

/-- Witness for `first_seen_wins`: with uid 5 delivered by both discovery
methods, the merged dict keeps the bounds version, and the emitted batch
carries the bounds reading's aqi 42 for uid 5 (not the search reading's 99)
next to the search-only uid 7. -/
theorem first_seen_wins_witness :
    (boundsPass c4Bounds = .ok [(.num 5, c4BndSt)] ∧
      dictLookup [(.num 5, c4BndSt)] (.num 5) = some c4BndSt) ∧
    dictLookup (searchPass [(.num 5, c4BndSt)] c4Search) (.num 5)
      = some c4BndSt ∧
    ((fetch_berlin_stations "NOW" c4Bounds c4Search).map
        (fun f => (pyGet1 f "properties").bind (fun p => pyGet1 p "aqi")))
      = [.ok (.num 42), .ok (.num 8)] := by
  have hq : (¬(52.5:ℚ) = 0) ∧ (¬(13.4:ℚ) = 0) ∧ (¬(52.4:ℚ) = 0) ∧
      (¬(13.5:ℚ) = 0) ∧ ((52.35:ℚ) ≤ 52.4) ∧ ((52.4:ℚ) ≤ 52.65) ∧
      ((13.10:ℚ) ≤ 13.5) ∧ ((13.5:ℚ) ≤ 13.70) := by norm_num
  have hb : boundsPass c4Bounds = .ok [(.num 5, c4BndSt)] := by
    rw [c4Bounds, boundsPass]
    simp [pyIndex, pyGet, pyGet1, List.lookup, c4BndSt, Json.truthy,
      Json.beq_eq, Json.beq, dictInsert, bind, Except.bind, pure, Except.pure,
      List.foldlM, hq.1, hq.2.1]
  have hu : dictLookup [(.num 5, c4BndSt)] (.num 5) = some c4BndSt := by
    simp [dictLookup, Json.beq_eq, Json.beq]
  refine ⟨⟨hb, hu⟩,
    (first_seen_wins "NOW" c4Bounds c4Search (.num 5) c4BndSt
      [(.num 5, c4BndSt)] hb hu).2.1, ?_⟩
  rw [fetch_berlin_stations]
  rw [(first_seen_wins "NOW" c4Bounds c4Search (.num 5) c4BndSt
      [(.num 5, c4BndSt)] hb hu).1]
  rw [c4Search, searchPass]
  simp [searchFold, searchStep, pyIndex, pyGet, pyGet1, List.lookup,
    c4BndSt, c4SrchSt5, c4SrchSt7, Json.truthy, Json.beq_eq, Json.beq,
    Json.beq.beqList, Json.beq.beqObj, dictInsert, dictLookup, bind,
    Except.bind, pure, Except.pure, List.foldlM,
    emitFeature, asFloatPy, pyLen, BERLIN_BOUNDS_lat1,
    BERLIN_BOUNDS_lat2, BERLIN_BOUNDS_lon1, BERLIN_BOUNDS_lon2,
    List.filterMap, hq.1, hq.2.1, hq.2.2.1, hq.2.2.2.1, hq.2.2.2.2.1,
    hq.2.2.2.2.2.1, hq.2.2.2.2.2.2.1, hq.2.2.2.2.2.2.2]

theorem Json.truthy_num (q : ℚ) : (Json.num q).truthy = !(q == 0) := rfl

theorem pyGet_obj (fs : List (String × Json)) (k : String) (d : Json) :
    pyGet (.obj fs) k d = .ok ((fs.lookup k).getD d) := by
  unfold pyGet
  cases h : fs.lookup k <;> simp [h]

/-- C5: the geographic rectangle filter is asymmetric by source.  Any entry
the keyword-search pass adds to the batch (present afterwards, absent
before) is the converted search record and its coordinates lie inside
`BERLIN_BOUNDS`; a bounding-box-path station with the same out-of-bounds
coordinates is accepted without any rectangle check — it stays in the merged
dict and its feature reaches the normalized batch. -/
theorem coordinate_filter_asymmetric :
    (∀ (dict : StationDict) (s : Json) (d' : StationDict) (k v : Json),
      searchStep dict s = .ok d' → (k, v) ∈ d' → (k, v) ∉ dict →
      ∃ (lat lon : ℚ) (aqi name time : Json),
        BERLIN_BOUNDS_lat1 ≤ lat ∧ lat ≤ BERLIN_BOUNDS_lat2 ∧
        BERLIN_BOUNDS_lon1 ≤ lon ∧ lon ≤ BERLIN_BOUNDS_lon2 ∧
        v = .obj [("uid", k), ("lat", .num lat), ("lon", .num lon),
                  ("aqi", aqi),
                  ("station", .obj [("name", name), ("time", time)])]) ∧
    (∀ (fs : List (String × Json)) (u : Json) (a b : ℚ) (search : ApiResp)
        (nowIso : String),
      fs.lookup "uid" = some u → u.truthy = true →
      fs.lookup "lat" = some (.num a) → ¬a = 0 →
      fs.lookup "lon" = some (.num b) → ¬b = 0 →
      ¬(BERLIN_BOUNDS_lat1 ≤ a ∧ a ≤ BERLIN_BOUNDS_lat2 ∧
        BERLIN_BOUNDS_lon1 ≤ b ∧ b ≤ BERLIN_BOUNDS_lon2) →
      dictLookup (searchPass [(u, .obj fs)] search) u = some (.obj fs) ∧
      ∃ f, emitFeature nowIso u (.obj fs) = some f ∧
        f ∈ fetch_berlin_stations nowIso
          (.status 200 (.obj [("status", .str "ok"),
                              ("data", .arr [.obj fs])])) search) := by
  constructor
  · intro dict s d' k v hs hmem hnot
    rcases searchStep_shape dict s d' hs with hd | ⟨k0, lat, lon, aqi, name,
      time, hnone, h1, h2, h3, h4, hins⟩
    · exact absurd (hd ▸ hmem) hnot
    · subst hins
      rcases mem_dictInsert_elim hmem with h | h
      · exact absurd h hnot
      · have hk : k = k0 := congrArg Prod.fst h
        have hv : v = .obj [("uid", k0), ("lat", .num lat), ("lon", .num lon),
            ("aqi", aqi),
            ("station", .obj [("name", name), ("time", time)])] :=
          congrArg Prod.snd h
        subst hk
        exact ⟨lat, lon, aqi, name, time, h1, h2, h3, h4, hv⟩
  · intro fs u a b search nowIso hu hut hlat ha hlon hb hout
    have hsingle : dictLookup [(u, .obj fs)] u = some (.obj fs) :=
      dictLookup_singleton u (.obj fs)
    have hpres := searchPass_preserves search [(u, .obj fs)] u (.obj fs)
      hsingle
    refine ⟨hpres.1, ?_⟩
    have hbp : boundsPass (.status 200 (.obj [("status", .str "ok"),
        ("data", .arr [.obj fs])])) = .ok [(u, .obj fs)] := by
      rw [boundsPass]
      simp [pyIndex, pyGet_obj, pyGet1, List.lookup, hu, hlat, hlon,
        Json.truthy_num, hut, dictInsert, bind, Except.bind, pure,
        Except.pure, List.foldlM, ha, hb, Json.beq_eq, Json.beq]
    have hemit : emitFeature nowIso u (.obj fs)
        = some (.obj [("type", .str "Feature"),
            ("geometry", .obj [("type", .str "Point"),
                               ("coordinates", .arr [.num b, .num a])]),
            ("properties", .obj [("uid", u),
              ("station", (fs.lookup "station").getD (.str "Unknown")),
              ("aqi", (fs.lookup "aqi").getD .null),
              ("timestamp", .str nowIso),
              ("source", .str "bounds_and_search_api")])]) := by
      rw [emitFeature]
      simp [pyGet_obj, pyGet1, hlat, hlon, asFloatPy, bind, Except.bind,
        pure, Except.pure, ha, hb]
    have hall : allStations (.status 200 (.obj [("status", .str "ok"),
        ("data", .arr [.obj fs])])) search
        = .ok (searchPass [(u, .obj fs)] search) := by
      simp [allStations, hbp, bind, Except.bind, pure, Except.pure]
    refine ⟨_, hemit, ?_⟩
    rw [fetch_berlin_stations, hall]
    exact List.mem_filterMap.mpr
      ⟨(u, .obj fs), hpres.2 (List.mem_singleton.mpr rfl), hemit⟩

/-- Raw search-API station used by the C5 witness (in-bounds, fresh uid). -/
def c5Srch : Json :=
  .obj [("uid", .num 7), ("aqi", .num 8),
        ("station", .obj [("name", .str "in"),
                          ("geo", .arr [.num 52.5, .num 13.5])])]

/-- Converted form of `c5Srch` after acceptance by the search pass. -/
def c5Conv : Json :=
  .obj [("uid", .num 7), ("lat", .num 52.5), ("lon", .num 13.5),
        ("aqi", .num 8),
        ("station", .obj [("name", .str "in"), ("time", .str "")])]

/-- Bounding-box station fields used by the C5 witness: coordinates
(10, 100) far outside `BERLIN_BOUNDS`. -/
def c5Far : List (String × Json) :=
  [("uid", .num 9), ("lat", .num 10), ("lon", .num 100), ("aqi", .num 50),
   ("station", .obj [("name", .str "far"), ("time", .str "t")])]

/-- Witness for `coordinate_filter_asymmetric`: the accepted search station
is in bounds, while the bounds-path station at (10, 100) survives to the
batch although those coordinates are far outside the rectangle. -/
theorem coordinate_filter_asymmetric_witness :
    (searchStep [] c5Srch = .ok [(.num 7, c5Conv)] ∧
      (.num 7, c5Conv) ∈ [((.num 7 : Json), c5Conv)] ∧
      ((.num 7 : Json), c5Conv) ∉ ([] : StationDict) ∧
      ∃ (lat lon : ℚ) (aqi name time : Json),
        BERLIN_BOUNDS_lat1 ≤ lat ∧ lat ≤ BERLIN_BOUNDS_lat2 ∧
        BERLIN_BOUNDS_lon1 ≤ lon ∧ lon ≤ BERLIN_BOUNDS_lon2 ∧
        c5Conv = .obj [("uid", .num 7), ("lat", .num lat), ("lon", .num lon),
                  ("aqi", aqi),
                  ("station", .obj [("name", name), ("time", time)])]) ∧
    (¬(BERLIN_BOUNDS_lat1 ≤ (10 : ℚ) ∧ (10 : ℚ) ≤ BERLIN_BOUNDS_lat2 ∧
        BERLIN_BOUNDS_lon1 ≤ (100 : ℚ) ∧ (100 : ℚ) ≤ BERLIN_BOUNDS_lon2)) ∧
    dictLookup (searchPass [(.num 9, .obj c5Far)] .exn) (.num 9)
      = some (.obj c5Far) ∧
    ∃ f, emitFeature "T0" (.num 9) (.obj c5Far) = some f ∧
      f ∈ fetch_berlin_stations "T0"
        (.status 200 (.obj [("status", .str "ok"),
                            ("data", .arr [.obj c5Far])])) .exn := by
  have hstep : searchStep [] c5Srch = .ok [(.num 7, c5Conv)] := by
    rw [searchStep, c5Srch, c5Conv]
    simp [pyGet_obj, pyGet1, List.lookup, Json.truthy, dictLookup, dictInsert,
      bind, Except.bind, pure, Except.pure, pyLen, asFloatPy,
      BERLIN_BOUNDS_lat1, BERLIN_BOUNDS_lat2, BERLIN_BOUNDS_lon1,
      BERLIN_BOUNDS_lon2]
    norm_num
  have hmem : ((.num 7 : Json), c5Conv) ∈ [((.num 7 : Json), c5Conv)] :=
    List.mem_singleton.mpr rfl
  have hnot : ((.num 7 : Json), c5Conv) ∉ ([] : StationDict) :=
    List.not_mem_nil _
  have hout : ¬(BERLIN_BOUNDS_lat1 ≤ (10 : ℚ) ∧ (10 : ℚ) ≤ BERLIN_BOUNDS_lat2 ∧
      BERLIN_BOUNDS_lon1 ≤ (100 : ℚ) ∧ (100 : ℚ) ≤ BERLIN_BOUNDS_lon2) := by
    norm_num [BERLIN_BOUNDS_lat1, BERLIN_BOUNDS_lat2]
  have h2 := coordinate_filter_asymmetric.2 c5Far (.num 9) 10 100 .exn "T0"
    rfl (by simp [Json.truthy_num]) rfl (by norm_num) rfl (by norm_num) hout
  exact ⟨⟨hstep, hmem, hnot,
    coordinate_filter_asymmetric.1 [] c5Srch _ _ _ hstep hmem hnot⟩,
    hout, h2.1, h2.2⟩

/-- C10: for every region other than "berlin" (case-insensitively) the WAQI
data source returns the empty list instead of raising, and the
reconciliation cycle invoked with that result performs zero database writes
and completes: the stored table is returned unchanged with zero updates and
zero inserts. -/
theorem unsupported_region_no_writes (region : String)
    (fetched : Except Unit (List Json)) (now : Int)
    (state : List StationData) (h : ¬pyLower region = "berlin") :
    get_station_data region fetched = [] ∧
    update_berlin_stations now (get_station_data region fetched) state
      = (state, 0, 0) := by
  have hg : get_station_data region fetched = [] := by
    simp [get_station_data, h]
  refine ⟨hg, ?_⟩
  rw [hg]
  simp [update_berlin_stations]

/-- Witness for `unsupported_region_no_writes` at region "Paris", a
non-empty fetch result and a non-empty table. -/
theorem unsupported_region_no_writes_witness :
    (¬pyLower "Paris" = "berlin") ∧
    get_station_data "Paris" (.ok [Json.null]) = [] ∧
    update_berlin_stations 3 (get_station_data "Paris" (.ok [Json.null]))
        [c7Row] = ([c7Row], 0, 0) := by
  have h : ¬pyLower "Paris" = "berlin" := by decide
  exact ⟨h, unsupported_region_no_writes "Paris" (.ok [Json.null]) 3 [c7Row] h⟩

/-- Shape of a successful `enhanced_properties` extraction: the result is
the literal property object, and each measurement slot holds exactly what
the code's own `iaqi` extraction produced. -/
theorem enhancedProps_ok {uid data ep : Json}
    (h : enhancedProps uid data = .ok ep) :
    ∃ (name url aqi time pm25 pm10 no2 o3 co so2 tmp prs hum wnd attr : Json),
      iaqiOf data "pm25" = .ok pm25 ∧
      ep = .obj [("uid", uid), ("name", name), ("url", url), ("aqi", aqi),
        ("time", time),
        ("pm25", pm25), ("pm10", pm10), ("no2", no2), ("o3", o3),
        ("co", co), ("so2", so2),
        ("temperature", tmp), ("pressure", prs),
        ("humidity", hum), ("wind_speed", wnd),
        ("attributions", attr)] := by
  unfold enhancedProps at h
  simp only [bind, Except.bind, pure, Except.pure] at h
  repeat' split at h
  all_goals try exact Except.noConfusion h
  injection h with h
  subst h
  exact ⟨_, _, _, _, _, _, _, _, _, _, _, _, _, _, _, by assumption, rfl⟩

/-- The `pm25` field of any record the scheduler conversion produces comes
from `properties.get("pm25")` through the `Optional[float]` validation. -/
theorem toRecord_ok_pm25 {station : Json} {r : StationDataBase}
    (h : toRecord station = .ok r) :
    ∃ props v, pyGet station "properties" (.obj []) = .ok props ∧
      pyGet1 props "pm25" = .ok v ∧ asOptFloat v = .ok r.pm25 := by
  unfold toRecord at h
  simp only [bind, Except.bind, pure, Except.pure] at h
  repeat' split at h
  all_goals try exact Except.noConfusion h
  injection h with h
  subst h
  exact ⟨_, _, by assumption, by assumption, by assumption⟩

/-- GeoJSON feature literal produced by `fetch_berlin_stations` for one
accepted station; this is the shape the detail fetch receives and falls back
to. -/
def basicFeature (uid stn aqi : Json) (lat lon : ℚ) (ts : String) : Json :=
  .obj [("type", .str "Feature"),
    ("geometry", .obj [("type", .str "Point"),
                       ("coordinates", .arr [.num lon, .num lat])]),
    ("properties", .obj [("uid", uid), ("station", stn), ("aqi", aqi),
                         ("timestamp", .str ts),
                         ("source", .str "bounds_and_search_api")])]

/-- Shape of a successful per-station detail extraction: the enhanced
feature pairs the basic station's geometry with the extracted properties. -/
theorem detailTry_ok_some {basic uid body : Json} {f : Json}
    (h : detailTry basic uid (.status 200 body) = .ok (some f)) :
    ∃ data ep geom, pyIndex body "data" = .ok data ∧
      enhancedProps uid data = .ok ep ∧
      pyIndex basic "geometry" = .ok geom ∧
      f = .obj [("type", .str "Feature"), ("geometry", geom),
                ("properties", ep)] := by
  rw [detailTry] at h
  simp only [bind, Except.bind, pure, Except.pure] at h
  repeat' split at h
  all_goals try exact Except.noConfusion h
  all_goals try (injection h with h; exact Option.noConfusion h)
  injection h with h
  injection h with h
  subst h
  exact ⟨_, _, _, by assumption, by assumption, by assumption, rfl⟩

theorem detailAbsentNull_record_none (n : ℤ) (stn aqi0 : Json) (lat lon : ℚ) (ts : String)
    (body : Json) (feats : List Json)
    (hn : ¬(n : ℚ) = 0)
    (hnull : ∀ data, pyIndex body "data" = .ok data →
      iaqiOf data "pm25" = .ok .null ∨ iaqiOf data "pm25" = .error ())
    (hfetch : fetch_berlin_stations_detailed
        [basicFeature (.num (n : ℚ)) stn aqi0 lat lon ts]
        (fun _ => .status 200 body) = .ok feats) :
    ∀ f ∈ feats, ∀ r, toRecord f = .ok r → r.pm25 = none := by
  intro f hf r htr
  set b := basicFeature (.num (n : ℚ)) stn aqi0 lat lon ts with hb
  have hbasic : ∀ r', toRecord b = .ok r' → r'.pm25 = none := by
    intro r' htr'
    obtain ⟨props, v, hp, hv, hq⟩ := toRecord_ok_pm25 htr'
    have hp' : pyGet b "properties" (.obj [])
        = .ok (.obj [("uid", .num (n : ℚ)), ("station", stn), ("aqi", aqi0),
            ("timestamp", .str ts),
            ("source", .str "bounds_and_search_api")]) := by
      simp [hb, basicFeature, pyGet, List.lookup]
    rw [hp'] at hp
    injection hp with hp
    subst hp
    have hv' : v = .null := by
      simp [pyGet1, pyGet, List.lookup] at hv
      exact hv.symm
    subst hv'
    simp [asOptFloat] at hq
    exact hq.symm
  rw [fetch_berlin_stations_detailed] at hfetch
  simp only [List.foldlM, bind, Except.bind, pure, Except.pure] at hfetch
  have hpget : pyGet b "properties" (.obj [])
      = .ok (.obj [("uid", .num (n : ℚ)), ("station", stn), ("aqi", aqi0),
          ("timestamp", .str ts),
          ("source", .str "bounds_and_search_api")]) := by
    simp [hb, basicFeature, pyGet, List.lookup]
  rw [hpget] at hfetch
  simp [pyGet1, pyGet, List.lookup,
    show (Json.num (n:ℚ)).truthy = true by simp [Json.truthy_num, hn]]
    at hfetch
  cases hdt : detailTry b (.num (n : ℚ)) (.status 200 body) with
  | error e =>
    rw [hdt] at hfetch
    injection hfetch with hfetch
    subst hfetch
    simp only [List.nil_append, List.mem_singleton] at hf
    subst hf
    exact hbasic r htr
  | ok o =>
    rw [hdt] at hfetch
    cases o with
    | none =>
      injection hfetch with hfetch
      subst hfetch
      simp at hf
    | some f0 =>
      injection hfetch with hfetch
      subst hfetch
      simp only [List.nil_append, List.mem_singleton] at hf
      subst hf
      obtain ⟨data, ep, geom, hdata, hep, hgeomx, hf0⟩ := detailTry_ok_some hdt
      subst hf0
      obtain ⟨name, url, aqi, time, pm25, pm10, no2, o3, co, so2, tmp, prs,
        hum, wnd, attr, hpm, hepshape⟩ := enhancedProps_ok hep
      have hpm25null : pm25 = .null := by
        rcases hnull data hdata with hok | herr
        · exact Except.ok.inj (hpm.symm.trans hok)
        · exact Except.noConfusion (hpm.symm.trans herr)
      subst hpm25null
      obtain ⟨props, v, hp, hv, hq⟩ := toRecord_ok_pm25 htr
      have hp2 : pyGet (Json.obj [("type", .str "Feature"),
          ("geometry", geom), ("properties", ep)]) "properties" (.obj [])
          = .ok ep := by
        simp [pyGet, List.lookup]
      rw [hp2] at hp
      injection hp with hp
      subst hp
      rw [hepshape] at hv
      have hv' : v = .null := by
        simp [pyGet1, pyGet, List.lookup] at hv
        exact hv.symm
      subst hv'
      simp [asOptFloat] at hq
      exact hq.symm

theorem allAbsent_still_stored (n : ℤ) (stn aqi0 : Json) (lat lon : ℚ)
    (ts nm url ts2 : String) (now : Int) (hn : ¬(n : ℚ) = 0) :
    ∃ (r : StationDataBase) (feats : List Json),
      fetch_berlin_stations_detailed
        [basicFeature (.num (n : ℚ)) stn aqi0 lat lon ts]
        (fun _ => .status 200 (.obj [("status", .str "ok"),
          ("data", .obj [("city", .obj [("name", .str nm), ("url", .str url)]),
                         ("time", .obj [("s", .str ts2)])])])) = .ok feats ∧
      feats.length = 1 ∧ (∀ f ∈ feats, toRecord f = .ok r) ∧
      r.station_uid = n ∧ r.station_name = nm ∧ r.aqi = none ∧
      r.pm25 = none ∧ r.pm10 = none ∧ r.no2 = none ∧ r.o3 = none ∧
      r.co = none ∧ r.so2 = none ∧ r.temperature = none ∧
      r.pressure = none ∧ r.humidity = none ∧ r.wind_speed = none ∧
      r.latitude = lat ∧ r.longitude = lon ∧
      upsert_station_data now [r] [] = ([rowOfData r 1 now], 0, 1) ∧
      (rowOfData r 1 now).pm25 = none := by
  have hep : enhancedProps (.num (n : ℚ))
      (.obj [("city", .obj [("name", .str nm), ("url", .str url)]),
             ("time", .obj [("s", .str ts2)])])
      = .ok (.obj [("uid", .num (n : ℚ)), ("name", .str nm),
          ("url", .str url), ("aqi", .null), ("time", .str ts2),
          ("pm25", .null), ("pm10", .null), ("no2", .null), ("o3", .null),
          ("co", .null), ("so2", .null),
          ("temperature", .null), ("pressure", .null),
          ("humidity", .null), ("wind_speed", .null),
          ("attributions", .arr [])]) := rfl
  have hdt : detailTry (basicFeature (.num (n : ℚ)) stn aqi0 lat lon ts)
      (.num (n : ℚ)) (.status 200 (.obj [("status", .str "ok"),
        ("data", .obj [("city", .obj [("name", .str nm), ("url", .str url)]),
                       ("time", .obj [("s", .str ts2)])])]))
      = .ok (some (.obj [("type", .str "Feature"),
          ("geometry", .obj [("type", .str "Point"),
            ("coordinates", .arr [.num lon, .num lat])]),
          ("properties", .obj [("uid", .num (n : ℚ)), ("name", .str nm),
            ("url", .str url), ("aqi", .null), ("time", .str ts2),
            ("pm25", .null), ("pm10", .null), ("no2", .null), ("o3", .null),
            ("co", .null), ("so2", .null),
            ("temperature", .null), ("pressure", .null),
            ("humidity", .null), ("wind_speed", .null),
            ("attributions", .arr [])])])) := by
    rw [detailTry]
    simp [pyGet1, pyGet, pyIndex, List.lookup, Json.hasKey, bind,
      Except.bind, pure, Except.pure, hep, basicFeature, Json.beq_eq,
      Json.beq]
  have hfetch : fetch_berlin_stations_detailed
      [basicFeature (.num (n : ℚ)) stn aqi0 lat lon ts]
      (fun _ => .status 200 (.obj [("status", .str "ok"),
        ("data", .obj [("city", .obj [("name", .str nm), ("url", .str url)]),
                       ("time", .obj [("s", .str ts2)])])]))
      = .ok [.obj [("type", .str "Feature"),
          ("geometry", .obj [("type", .str "Point"),
            ("coordinates", .arr [.num lon, .num lat])]),
          ("properties", .obj [("uid", .num (n : ℚ)), ("name", .str nm),
            ("url", .str url), ("aqi", .null), ("time", .str ts2),
            ("pm25", .null), ("pm10", .null), ("no2", .null), ("o3", .null),
            ("co", .null), ("so2", .null),
            ("temperature", .null), ("pressure", .null),
            ("humidity", .null), ("wind_speed", .null),
            ("attributions", .arr [])])]] := by
    have hpget : pyGet (basicFeature (.num (n : ℚ)) stn aqi0 lat lon ts)
        "properties" (.obj [])
        = .ok (.obj [("uid", .num (n : ℚ)), ("station", stn), ("aqi", aqi0),
            ("timestamp", .str ts),
            ("source", .str "bounds_and_search_api")]) := rfl
    rw [fetch_berlin_stations_detailed]
    simp only [List.foldlM, bind, Except.bind, pure, Except.pure]
    rw [hpget]
    simp [pyGet1, pyGet, List.lookup, hdt,
      show (Json.num (n : ℚ)).truthy = true by simp [Json.truthy_num, hn]]
  refine ⟨{ station_uid := n, station_name := nm,
            station_url := some url, latitude := lat, longitude := lon,
            station_timestamp := some ts2,
            data_attribution := some (.arr []) }, _, hfetch, rfl, ?_, rfl,
    rfl, rfl, rfl, rfl, rfl, rfl, rfl, rfl, rfl, rfl, rfl, rfl, rfl, rfl,
    ?_, rfl⟩
  · intro f hf
    rw [List.mem_singleton] at hf
    subst hf
    exact rfl
  · exact rfl


/-- C9: missing-value fidelity.  First half: whenever the detail payload's
own pm25 extraction yields null (field absent at any nesting level) or
raises (present-but-null nested field), every record the scheduler derives
from the resulting feature — enhanced or fallback — carries pm25 as absent,
never zero.  Second half: a payload whose pollutant and weather sections are
entirely absent still normalizes and stores, provided identity and
coordinates are present: exactly one feature is produced, it converts to a
record with every measurement field absent (aqi included), the identity and
coordinates intact, and the upsert executor inserts it. -/
theorem missing_value_fidelity :
    (∀ (n : ℤ) (stn aqi0 : Json) (lat lon : ℚ) (ts : String) (body : Json)
        (feats : List Json),
      ¬(n : ℚ) = 0 →
      (∀ data, pyIndex body "data" = .ok data →
        iaqiOf data "pm25" = .ok .null ∨ iaqiOf data "pm25" = .error ()) →
      fetch_berlin_stations_detailed
          [basicFeature (.num (n : ℚ)) stn aqi0 lat lon ts]
          (fun _ => .status 200 body) = .ok feats →
      ∀ f ∈ feats, ∀ r, toRecord f = .ok r → r.pm25 = none) ∧
    (∀ (n : ℤ) (stn aqi0 : Json) (lat lon : ℚ)
        (ts nm url ts2 : String) (now : Int), ¬(n : ℚ) = 0 →
      ∃ (r : StationDataBase) (feats : List Json),
        fetch_berlin_stations_detailed
          [basicFeature (.num (n : ℚ)) stn aqi0 lat lon ts]
          (fun _ => .status 200 (.obj [("status", .str "ok"),
            ("data", .obj [("city", .obj [("name", .str nm),
                             ("url", .str url)]),
                           ("time", .obj [("s", .str ts2)])])])) = .ok feats ∧
        feats.length = 1 ∧ (∀ f ∈ feats, toRecord f = .ok r) ∧
        r.station_uid = n ∧ r.station_name = nm ∧ r.aqi = none ∧
        r.pm25 = none ∧ r.pm10 = none ∧ r.no2 = none ∧ r.o3 = none ∧
        r.co = none ∧ r.so2 = none ∧ r.temperature = none ∧
        r.pressure = none ∧ r.humidity = none ∧ r.wind_speed = none ∧
        r.latitude = lat ∧ r.longitude = lon ∧
        upsert_station_data now [r] [] = ([rowOfData r 1 now], 0, 1) ∧
        (rowOfData r 1 now).pm25 = none) :=
  ⟨fun n stn aqi0 lat lon ts body feats hn hnull hfetch =>
    detailAbsentNull_record_none n stn aqi0 lat lon ts body feats hn hnull
      hfetch,
   fun n stn aqi0 lat lon ts nm url ts2 now hn =>
    allAbsent_still_stored n stn aqi0 lat lon ts nm url ts2 now hn⟩

/-- Detail-feed payload of the C9 witness: `iaqi.pm25` is present but null
(the case that raises inside the extraction), `iaqi.no2` is a normal
value. -/
def c9Data : Json :=
  .obj [("city", .obj [("name", .str "N"), ("url", .str "U")]),
        ("time", .obj [("s", .str "T")]),
        ("iaqi", .obj [("pm25", .null), ("no2", .obj [("v", .num 3)])])]

/-- Detail-feed response body of the C9 witness. -/
def c9Body : Json := .obj [("status", .str "ok"), ("data", c9Data)]

/-- Basic feature of the C9 witness. -/
def c9Basic : Json :=
  basicFeature (.num 5) (.str "S") (.num 42) 52.5 13.4 "t"

/-- Witness for `missing_value_fidelity`: the present-but-null `iaqi.pm25`
makes the detail extraction raise, the cycle falls back to the basic
feature, and the stored record's pm25 is absent (not zero); the all-absent
payload instance is produced at uid 7. -/
theorem missing_value_fidelity_witness :
    (¬((5 : ℤ) : ℚ) = 0 ∧
      iaqiOf c9Data "pm25" = .error () ∧
      fetch_berlin_stations_detailed [c9Basic]
        (fun _ => .status 200 c9Body) = .ok [c9Basic] ∧
      ∃ rec, toRecord c9Basic = .ok rec ∧ rec.pm25 = none) ∧
    (∃ (r : StationDataBase) (feats : List Json),
      fetch_berlin_stations_detailed
        [basicFeature (.num ((7 : ℤ) : ℚ)) (.str "S") (.num 1) 52.5 13.4 "t"]
        (fun _ => .status 200 (.obj [("status", .str "ok"),
          ("data", .obj [("city", .obj [("name", .str "Name"),
                           ("url", .str "http")]),
                         ("time", .obj [("s", .str "T2")])])])) = .ok feats ∧
      feats.length = 1 ∧ (∀ f ∈ feats, toRecord f = .ok r) ∧
      r.station_uid = 7 ∧ r.station_name = "Name" ∧ r.aqi = none ∧
      r.pm25 = none ∧ r.pm10 = none ∧ r.no2 = none ∧ r.o3 = none ∧
      r.co = none ∧ r.so2 = none ∧ r.temperature = none ∧
      r.pressure = none ∧ r.humidity = none ∧ r.wind_speed = none ∧
      r.latitude = 52.5 ∧ r.longitude = 13.4 ∧
      upsert_station_data 99 [r] [] = ([rowOfData r 1 99], 0, 1) ∧
      (rowOfData r 1 99).pm25 = none) := by
  have hn5 : ¬((5 : ℤ) : ℚ) = 0 := by norm_num
  have hdtc : detailTry c9Basic (.num 5) (.status 200 c9Body)
      = .error () := by
    rw [detailTry]
    simp [pyGet1, pyGet, pyIndex, List.lookup, Json.hasKey, bind,
      Except.bind, pure, Except.pure, Json.beq_eq, Json.beq, c9Body,
      show enhancedProps (.num 5) c9Data = .error () from rfl]
  have hfetchc : fetch_berlin_stations_detailed [c9Basic]
      (fun _ => .status 200 c9Body) = .ok [c9Basic] := by
    rw [fetch_berlin_stations_detailed]
    simp only [List.foldlM, bind, Except.bind, pure, Except.pure]
    rw [show pyGet c9Basic "properties" (.obj [])
        = .ok (.obj [("uid", .num 5), ("station", .str "S"),
            ("aqi", .num 42), ("timestamp", .str "t"),
            ("source", .str "bounds_and_search_api")]) from rfl]
    simp [pyGet1, pyGet, List.lookup, hdtc,
      show (Json.num (5 : ℚ)).truthy = true by
        simp [Json.truthy_num]]
  have hnullc : ∀ data, pyIndex c9Body "data" = .ok data →
      iaqiOf data "pm25" = .ok .null ∨ iaqiOf data "pm25" = .error () := by
    intro data hd
    have hx : pyIndex c9Body "data" = .ok c9Data := rfl
    rw [hx] at hd
    have : data = c9Data := (Except.ok.inj hd).symm
    subst this
    exact Or.inr rfl
  refine ⟨⟨hn5, rfl, hfetchc, ?_⟩, ?_⟩
  · exact ⟨_, rfl,
      missing_value_fidelity.1 5 (.str "S") (.num 42) 52.5 13.4 "t"
        c9Body [c9Basic] hn5 hnullc hfetchc c9Basic
        (List.mem_singleton.mpr rfl) _ rfl⟩
  · exact missing_value_fidelity.2 7 (.str "S") (.num 1) 52.5 13.4 "t"
      "Name" "http" "T2" 99 (by norm_num)
